import Mathlib

/-!
Shallow embedding of `world_map.py`: the world-map graph store of the
`sword` repository. Rooms and exits are records; Python dictionaries
(which preserve insertion order) are association lists with
first-occurrence lookup, position-preserving overwrite and append on
fresh keys. Python floats are modelled as real numbers. Mutating
methods are state-passing functions on `WorldMap`; methods that raise
return `Option`/`Except`. Python is dynamically typed, so the decoder
models a type-mismatched required field as a decode failure, the same
outcome class as a missing key.
-/

open scoped Classical

/-- The ten exit directions of `Direction` in `world_map.py`. -/
inductive Direction where
  | north | south | east | west
  | northeast | northwest | southeast | southwest
  | up | down
deriving DecidableEq, Repr

/-- `Direction.value`: the lowercase token of each enum member. -/
def Direction.value : Direction → String
  | .north => "north"
  | .south => "south"
  | .east => "east"
  | .west => "west"
  | .northeast => "northeast"
  | .northwest => "northwest"
  | .southeast => "southeast"
  | .southwest => "southwest"
  | .up => "up"
  | .down => "down"

/-- `Direction(s)`: enum lookup by value; `none` models the `ValueError`
on an unrecognized token. -/
def Direction.fromString (s : String) : Option Direction :=
  if s = "north" then some .north
  else if s = "south" then some .south
  else if s = "east" then some .east
  else if s = "west" then some .west
  else if s = "northeast" then some .northeast
  else if s = "northwest" then some .northwest
  else if s = "southeast" then some .southeast
  else if s = "southwest" then some .southwest
  else if s = "up" then some .up
  else if s = "down" then some .down
  else none

/-- The pairing table of `WorldMap._get_reverse_direction`. -/
def Direction.reverse : Direction → Direction
  | .north => .south
  | .south => .north
  | .east => .west
  | .west => .east
  | .northeast => .southwest
  | .southwest => .northeast
  | .northwest => .southeast
  | .southeast => .northwest
  | .up => .down
  | .down => .up

/-- `WorldMap._get_reverse_direction`: `reverse_map.get(direction)`; the
table covers all ten members, so the `Optional` is always `some`. -/
def get_reverse_direction (d : Direction) : Option Direction :=
  some d.reverse

/-- First-occurrence lookup in an insertion-ordered dictionary
(`d[k]` / `d.get(k)` on a Python dict). -/
def dictGet {α β : Type} [DecidableEq α] (k : α) : List (α × β) → Option β
  | [] => none
  | (k', v) :: rest => if k' = k then some v else dictGet k rest

/-- `d[k] = v` on a Python dict: overwrite in place if the key is
present (keeping its position), else append at the end. -/
def dictInsert {α β : Type} [DecidableEq α] (k : α) (v : β) : List (α × β) → List (α × β)
  | [] => [(k, v)]
  | (k', v') :: rest =>
      if k' = k then (k, v) :: rest else (k', v') :: dictInsert k v rest

/-- In-place mutation of the value stored at an existing key (a Python
object held in a dict being mutated through a reference). -/
def dictUpdate {α β : Type} [DecidableEq α] (k : α) (f : β → β) : List (α × β) → List (α × β)
  | [] => []
  | (k', v) :: rest =>
      if k' = k then (k', f v) :: rest else (k', v) :: dictUpdate k f rest

/-- `RoomExit` dataclass. -/
structure RoomExit where
  direction : Direction
  target_room_id : Option String
  is_discovered : Bool

/-- `Room` dataclass. `exits` is the insertion-ordered
`Dict[Direction, RoomExit]`. -/
structure Room where
  id : String
  name : String
  description : String
  width : ℝ
  height : ℝ
  x : ℝ := 0
  y : ℝ := 0
  exits : List (Direction × RoomExit) := []
  is_starting_room : Bool := false
  discovery_order : Nat := 0

/-- `Room.add_exit`: sets `exits[direction]`, with
`is_discovered = (target_room_id is not None)`. -/
def Room.add_exit (r : Room) (direction : Direction)
    (target_room_id : Option String := none) : Room :=
  let e : RoomExit := ⟨direction, target_room_id, target_room_id.isSome⟩
  { r with exits := dictInsert direction e r.exits }

/-- `WorldMap` store: insertion-ordered room table, discovery counter,
optional starting-room id. -/
structure WorldMap where
  rooms : List (String × Room) := []
  discovery_count : Nat := 0
  starting_room_id : Option String := none

/-- `WorldMap()` constructor. -/
def WorldMap.empty : WorldMap := {}

/-- `WorldMap.add_room`: idempotent on an existing id; otherwise bumps
the counter, creates the room, and — when `is_starting_room` is set or
the store was empty — pins it at the origin and records it as the
starting room. Returns the updated store and the returned `Room`. -/
def WorldMap.add_room (m : WorldMap) (room_id name description : String)
    (width height : ℝ) (is_starting_room : Bool := false) : WorldMap × Room :=
  match dictGet room_id m.rooms with
  | some r => (m, r)
  | none =>
      let dc := m.discovery_count + 1
      let room : Room :=
        { id := room_id, name := name, description := description,
          width := width, height := height,
          is_starting_room := is_starting_room, discovery_order := dc }
      if is_starting_room || m.rooms.isEmpty then
        let room := { room with x := 0, y := 0 }
        ({ rooms := dictInsert room_id room m.rooms,
           discovery_count := dc,
           starting_room_id := some room_id }, room)
      else
        ({ m with rooms := dictInsert room_id room m.rooms,
                  discovery_count := dc }, room)

/-- `WorldMap._rooms_overlap`: axis-aligned rectangle overlap; touching
edges do not overlap. -/
def rooms_overlap (room1 room2 : Room) : Prop :=
  let r1_left := room1.x - room1.width / 2
  let r1_right := room1.x + room1.width / 2
  let r1_bottom := room1.y - room1.height / 2
  let r1_top := room1.y + room1.height / 2
  let r2_left := room2.x - room2.width / 2
  let r2_right := room2.x + room2.width / 2
  let r2_bottom := room2.y - room2.height / 2
  let r2_top := room2.y + room2.height / 2
  ¬ (r1_right ≤ r2_left ∨ r1_left ≥ r2_right ∨
     r1_top ≤ r2_bottom ∨ r1_bottom ≥ r2_top)

/-- `WorldMap._move_room_away_from_conflict`: push the moving room out
along the (normalized) center-to-center direction, `(1,0)` when the
centers coincide, to distance `max((w₁+w₂)/2 + 1, (h₁+h₂)/2 + 1)` from
the blocking center. -/
noncomputable def move_room_away_from_conflict (moving_room blocking_room : Room) : Room :=
  let dx := moving_room.x - blocking_room.x
  let dy := moving_room.y - blocking_room.y
  let distance := Real.sqrt (dx * dx + dy * dy)
  let dxn := if distance = 0 then (1 : ℝ) else dx / distance
  let dyn := if distance = 0 then (0 : ℝ) else dy / distance
  let min_distance_x := (moving_room.width + blocking_room.width) / 2 + 1
  let min_distance_y := (moving_room.height + blocking_room.height) / 2 + 1
  let min_distance := max min_distance_x min_distance_y
  { moving_room with
      x := blocking_room.x + dxn * min_distance,
      y := blocking_room.y + dyn * min_distance }

/-- The scan inside one pass of `WorldMap._resolve_spatial_conflicts`:
first room in table order that is not the new room (compared by `id`)
and overlaps it. -/
noncomputable def findConflict (new_room : Room) : List (String × Room) → Option Room
  | [] => none
  | (_, existing_room) :: rest =>
      if existing_room.id = new_room.id then findConflict new_room rest
      else if rooms_overlap new_room existing_room then some existing_room
      else findConflict new_room rest

/-- `WorldMap._resolve_spatial_conflicts`: bounded relaxation, at most
`fuel` relocation passes, each acting on the first conflict found; the
moved room lives in the table under `new_id` and is re-read each pass. -/
noncomputable def WorldMap.resolveLoop (m : WorldMap) (new_id : String) : Nat → WorldMap
  | 0 => m
  | fuel + 1 =>
      match dictGet new_id m.rooms with
      | none => m
      | some new_room =>
          match findConflict new_room m.rooms with
          | none => m
          | some blocking_room =>
              let moved := move_room_away_from_conflict new_room blocking_room
              WorldMap.resolveLoop
                { m with rooms := dictUpdate new_id (fun _ => moved) m.rooms }
                new_id fuel

/-- `WorldMap._resolve_spatial_conflicts` with its `max_iterations = 10`. -/
noncomputable def WorldMap.resolve_spatial_conflicts (m : WorldMap) (new_id : String) : WorldMap :=
  m.resolveLoop new_id 10

/-- The offset table of `WorldMap._position_room_relative_to`. -/
def directionVector (d : Direction) (base_distance_x base_distance_y : ℝ) : ℝ × ℝ :=
  match d with
  | .north => (0, base_distance_y)
  | .south => (0, -base_distance_y)
  | .east => (base_distance_x, 0)
  | .west => (-base_distance_x, 0)
  | .northeast => (base_distance_x * 0.7, base_distance_y * 0.7)
  | .northwest => (-base_distance_x * 0.7, base_distance_y * 0.7)
  | .southeast => (base_distance_x * 0.7, -base_distance_y * 0.7)
  | .southwest => (-base_distance_x * 0.7, -base_distance_y * 0.7)
  | .up => (0, 0)
  | .down => (0, 0)

/-- `WorldMap._position_room_relative_to`: place the room stored under
`target_id` edge-to-edge from `reference_room` along `d`, then resolve
conflicts. -/
noncomputable def WorldMap.position_room_relative_to (m : WorldMap) (target_id : String)
    (reference_room : Room) (d : Direction) : WorldMap :=
  match dictGet target_id m.rooms with
  | none => m
  | some target_room =>
      let base_distance_x := (reference_room.width + target_room.width) / 2
      let base_distance_y := (reference_room.height + target_room.height) / 2
      let off := directionVector d base_distance_x base_distance_y
      let place : Room → Room := fun r =>
        { r with x := reference_room.x + off.1, y := reference_room.y + off.2 }
      let m' := { m with rooms := dictUpdate target_id place m.rooms }
      m'.resolve_spatial_conflicts target_id

/-- `WorldMap.connect_rooms`: `none` models the `ValueError` when either
room is absent; otherwise add the forward exit, the reverse exit, and
hand the target to the placement path when it sits at the (0,0)
sentinel and is not flagged as the starting room. -/
noncomputable def WorldMap.connect_rooms (m : WorldMap) (from_room_id : String)
    (direction : Direction) (to_room_id : String) : Option WorldMap :=
  match dictGet from_room_id m.rooms, dictGet to_room_id m.rooms with
  | some _, some _ =>
      let fwd : Room → Room := fun r => r.add_exit direction (some to_room_id)
      let m1 := { m with rooms := dictUpdate from_room_id fwd m.rooms }
      let m2 :=
        match get_reverse_direction direction with
        | some reverse_direction =>
            let rev : Room → Room := fun r => r.add_exit reverse_direction (some from_room_id)
            { m1 with rooms := dictUpdate to_room_id rev m1.rooms }
        | none => m1
      some <|
        match dictGet to_room_id m2.rooms, dictGet from_room_id m2.rooms with
        | some to_room, some from_room =>
            if to_room.x = 0 ∧ to_room.y = 0 ∧ to_room.is_starting_room = false then
              m2.position_room_relative_to to_room_id from_room direction
            else m2
        | _, _ => m2
  | _, _ => none

/-- `WorldMap.discover_exit`: silently does nothing when the room id is
absent; otherwise records an undiscovered exit with no target. -/
def WorldMap.discover_exit (m : WorldMap) (room_id : String) (direction : Direction) :
    WorldMap :=
  match dictGet room_id m.rooms with
  | some _ =>
      { m with rooms := dictUpdate room_id (fun r => r.add_exit direction) m.rooms }
  | none => m

/-!
Persistence codec. `to_dict` / `from_dict` work on a JSON-like value
type; Python's `int`/`float` distinction survives `json.dump`/`load`,
so integers and floats are separate constructors. Optional fields read
with `.get` keep their Python defaults; a required field that is
missing — or, under this typed model, holds a value of the wrong
shape — makes the decoder fail.
-/

/-- JSON-like values exchanged with `json.dump` / `json.load`. -/
inductive JValue where
  | null
  | str (s : String)
  | nat (n : Nat)
  | real (r : ℝ)
  | bool (b : Bool)
  | obj (fields : List (String × JValue))

/-- Field access on an object; `none` on a missing key or a non-object. -/
def JValue.getField : JValue → String → Option JValue
  | .obj fields, k => dictGet k fields
  | _, _ => none

/-- Serialization of `Optional[str]` (`None` becomes JSON null). -/
def optStr : Option String → JValue
  | some s => .str s
  | none => .null

/-- Read a string-valued field result. -/
def getStr : Option JValue → Option String
  | some (.str s) => some s
  | _ => none

/-- Read a float-valued field result. -/
def getReal : Option JValue → Option ℝ
  | some (.real r) => some r
  | _ => none

/-- A required lookup: `d[k]` raising `KeyError` on absence. -/
def req {α : Type} : Option α → Except String α
  | some v => Except.ok v
  | none => Except.error "MalformedRecord"

/-- `data.get(k, {}).items()`: empty when the key is missing, a crash
(modelled as a decode error) when the value is not an object. -/
def getObjOrEmpty (j : JValue) (k : String) : Except String (List (String × JValue)) :=
  match j.getField k with
  | some (.obj fields) => Except.ok fields
  | none => Except.ok []
  | some _ => Except.error "MalformedRecord"

/-- The exit record written by `WorldMap.to_dict`. -/
def RoomExit.to_dict (e : RoomExit) : JValue :=
  .obj [("direction", .str e.direction.value),
        ("target_room_id", optStr e.target_room_id),
        ("is_discovered", .bool e.is_discovered)]

/-- The room record written by `WorldMap.to_dict`. -/
def Room.to_dict (r : Room) : JValue :=
  .obj [("id", .str r.id),
        ("name", .str r.name),
        ("description", .str r.description),
        ("width", .real r.width),
        ("height", .real r.height),
        ("x", .real r.x),
        ("y", .real r.y),
        ("is_starting_room", .bool r.is_starting_room),
        ("discovery_order", .nat r.discovery_order),
        ("exits", .obj (r.exits.map (fun p => (p.1.value, p.2.to_dict))))]

/-- `WorldMap.to_dict`. -/
def WorldMap.to_dict (m : WorldMap) : JValue :=
  .obj [("discovery_count", .nat m.discovery_count),
        ("starting_room_id", optStr m.starting_room_id),
        ("rooms", .obj (m.rooms.map (fun p => (p.1, p.2.to_dict))))]

/-- First decode pass for one room record: geometry and flags, no exits.
`id, name, description, width, height, x, y` are required (`KeyError` on
absence); `is_starting_room` and `discovery_order` default. -/
def decodeRoom (j : JValue) : Except String Room := do
  let id ← req (getStr (j.getField "id"))
  let name ← req (getStr (j.getField "name"))
  let description ← req (getStr (j.getField "description"))
  let width ← req (getReal (j.getField "width"))
  let height ← req (getReal (j.getField "height"))
  let x ← req (getReal (j.getField "x"))
  let y ← req (getReal (j.getField "y"))
  let is_starting_room := match j.getField "is_starting_room" with
    | some (.bool b) => b
    | _ => false
  let discovery_order := match j.getField "discovery_order" with
    | some (.nat n) => n
    | _ => 0
  pure { id := id, name := name, description := description,
         width := width, height := height, x := x, y := y,
         is_starting_room := is_starting_room,
         discovery_order := discovery_order }

/-- One stored exit record: `direction` is required and must be a known
token (`Direction(...)` raises otherwise); the rest default. -/
def decodeRoomExit (j : JValue) : Except String RoomExit := do
  let dstr ← req (getStr (j.getField "direction"))
  let direction ← req (Direction.fromString dstr)
  let target_room_id := getStr (j.getField "target_room_id")
  let is_discovered := match j.getField "is_discovered" with
    | some (.bool b) => b
    | _ => false
  pure ⟨direction, target_room_id, is_discovered⟩

/-- One stored exit attached to the room under reconstruction: its
dictionary key must be a known direction token. -/
def exitStep : Room → String × JValue → Except String Room :=
  fun r entry => do
    let direction ← req (Direction.fromString entry.1)
    let room_exit ← decodeRoomExit entry.2
    pure { r with exits := dictInsert direction room_exit r.exits }

/-- Second decode pass for one room record: parse each stored exit and
attach it to the already-instantiated room. -/
def attachExits (acc : WorldMap) (room_id : String) (room_data : JValue) :
    Except String WorldMap := do
  let room ← req (dictGet room_id acc.rooms)
  let exitsList ← getObjOrEmpty room_data "exits"
  let room ← exitsList.foldlM exitStep room
  pure { acc with rooms := dictUpdate room_id (fun _ => room) acc.rooms }

/-- `WorldMap.from_dict`: two passes — instantiate every room, then
restore every exit. -/
def WorldMap.from_dict (data : JValue) : Except String WorldMap := do
  let discovery_count := match data.getField "discovery_count" with
    | some (.nat n) => n
    | _ => 0
  let starting_room_id := getStr (data.getField "starting_room_id")
  let roomsList ← getObjOrEmpty data "rooms"
  let m1 ← roomsList.foldlM
    (fun (acc : WorldMap) (entry : String × JValue) => do
      let room ← decodeRoom entry.2
      pure { acc with rooms := dictInsert entry.1 room acc.rooms })
    { rooms := [], discovery_count := discovery_count,
      starting_room_id := starting_room_id }
  roomsList.foldlM (fun acc entry => attachExits acc entry.1 entry.2) m1

/-!
Driver-visible mutation sequences, for stating reachability invariants.
A `connect_rooms` call on a missing room raises before mutating
anything, so a failed call leaves the store unchanged.
-/

/-- One call an external driver can make against the store. -/
inductive Op where
  | addRoom (room_id name description : String) (width height : ℝ)
      (is_starting_room : Bool)
  | connectRooms (from_room_id : String) (direction : Direction) (to_room_id : String)
  | discoverExit (room_id : String) (direction : Direction)

/-- Apply one driver call; a raising `connect_rooms` leaves the store as
it was. -/
noncomputable def applyOp (m : WorldMap) : Op → WorldMap
  | .addRoom i n d w h s => (m.add_room i n d w h s).1
  | .connectRooms f d t => (m.connect_rooms f d t).getD m
  | .discoverExit i d => m.discover_exit i d

/-- Apply a sequence of driver calls in order. -/
noncomputable def applyOps (m : WorldMap) (ops : List Op) : WorldMap :=
  ops.foldl applyOp m

/-! Association-list dictionary lemmas. -/

theorem dictGet_dictInsert_self {α β : Type} [DecidableEq α] (k : α) (v : β)
    (l : List (α × β)) : dictGet k (dictInsert k v l) = some v := by
  induction l with
  | nil => simp [dictGet, dictInsert]
  | cons p rest ih =>
      obtain ⟨k', v'⟩ := p
      by_cases h : k' = k <;> simp [dictGet, dictInsert, h, ih]

theorem dictGet_dictInsert_ne {α β : Type} [DecidableEq α] {k k' : α} (v : β)
    (l : List (α × β)) (h : k' ≠ k) :
    dictGet k' (dictInsert k v l) = dictGet k' l := by
  induction l with
  | nil => simp [dictGet, dictInsert, Ne.symm h]
  | cons p rest ih =>
      obtain ⟨k'', v'⟩ := p
      by_cases h2 : k'' = k
      · subst h2
        simp [dictGet, dictInsert, Ne.symm h]
      · simp [dictGet, dictInsert, h2, ih]

theorem dictGet_dictUpdate_self {α β : Type} [DecidableEq α] (k : α) (f : β → β)
    (l : List (α × β)) : dictGet k (dictUpdate k f l) = (dictGet k l).map f := by
  induction l with
  | nil => simp [dictGet, dictUpdate]
  | cons p rest ih =>
      obtain ⟨k', v'⟩ := p
      by_cases h : k' = k <;> simp [dictGet, dictUpdate, h, ih]

theorem dictGet_dictUpdate_ne {α β : Type} [DecidableEq α] {k k' : α} (f : β → β)
    (l : List (α × β)) (h : k' ≠ k) :
    dictGet k' (dictUpdate k f l) = dictGet k' l := by
  induction l with
  | nil => simp [dictUpdate]
  | cons p rest ih =>
      obtain ⟨k'', v'⟩ := p
      by_cases h2 : k'' = k
      · subst h2
        simp [dictGet, dictUpdate, Ne.symm h]
      · simp [dictGet, dictUpdate, h2, ih]

theorem dictUpdate_dictUpdate {α β : Type} [DecidableEq α] (k : α) (f g : β → β)
    (l : List (α × β)) :
    dictUpdate k f (dictUpdate k g l) = dictUpdate k (f ∘ g) l := by
  induction l with
  | nil => simp [dictUpdate]
  | cons p rest ih =>
      obtain ⟨k', v'⟩ := p
      by_cases h : k' = k <;> simp [dictUpdate, h, ih]

theorem dictInsert_of_not_mem {α β : Type} [DecidableEq α] (k : α) (v : β)
    (l : List (α × β)) (h : dictGet k l = none) :
    dictInsert k v l = l ++ [(k, v)] := by
  induction l with
  | nil => simp [dictInsert]
  | cons p rest ih =>
      obtain ⟨k', v'⟩ := p
      by_cases h2 : k' = k
      · simp [dictGet, h2] at h
      · simp [dictGet, h2] at h
        simp [dictInsert, h2, ih h]

/-! Direction facts. -/

theorem Direction.reverse_reverse (d : Direction) : d.reverse.reverse = d := by
  cases d <;> rfl

theorem Direction.reverse_ne (d : Direction) : d.reverse ≠ d := by
  cases d <;> decide

theorem Direction.fromString_value (d : Direction) :
    Direction.fromString d.value = some d := by
  cases d <;> rfl

/-! Frame lemmas for the placement pipeline: the conflict resolver and
the placement step only ever rewrite the coordinates of the room stored
under the id being placed. -/

theorem resolveLoop_frame (tid : String) (fuel : Nat) (m : WorldMap) :
    ((m.resolveLoop tid fuel).discovery_count = m.discovery_count) ∧
    ((m.resolveLoop tid fuel).starting_room_id = m.starting_room_id) ∧
    (∀ k, k ≠ tid →
      dictGet k (m.resolveLoop tid fuel).rooms = dictGet k m.rooms) ∧
    (∀ r, dictGet tid m.rooms = some r →
      ∃ x y, dictGet tid (m.resolveLoop tid fuel).rooms =
        some { r with x := x, y := y }) := by
  induction fuel generalizing m with
  | zero =>
      refine ⟨rfl, rfl, fun k _ => rfl, fun r h => ⟨r.x, r.y, ?_⟩⟩
      show dictGet tid m.rooms = _
      rw [h]
  | succ fuel ih =>
      rcases h1 : dictGet tid m.rooms with _ | new_room
      · have heq : m.resolveLoop tid (fuel + 1) = m := by
          simp only [WorldMap.resolveLoop, h1]
        rw [heq]
        exact ⟨rfl, rfl, fun k _ => rfl, fun r h => Option.noConfusion h⟩
      · rcases h2 : findConflict new_room m.rooms with _ | blocker
        · have heq : m.resolveLoop tid (fuel + 1) = m := by
            simp only [WorldMap.resolveLoop, h1, h2]
          rw [heq]
          refine ⟨rfl, rfl, fun k _ => rfl, fun r h => ?_⟩
          have hr : new_room = r := Option.some_injective _ h
          subst hr
          exact ⟨new_room.x, new_room.y, by rw [h1]⟩
        · have heq : m.resolveLoop tid (fuel + 1) = WorldMap.resolveLoop { m with rooms := dictUpdate tid (fun _ => move_room_away_from_conflict new_room blocker) m.rooms } tid fuel := by
            simp only [WorldMap.resolveLoop, h1, h2]
          rw [heq]
          obtain ⟨hc, hs, hfr, hpos⟩ := ih { m with rooms := dictUpdate tid (fun _ => move_room_away_from_conflict new_room blocker) m.rooms }
          refine ⟨hc, hs, ?_, ?_⟩
          · intro k hk
            exact (hfr k hk).trans (dictGet_dictUpdate_ne _ _ hk)
          · intro r h
            have hr : new_room = r := Option.some_injective _ h
            subst hr
            have hget : dictGet tid (dictUpdate tid (fun _ => move_room_away_from_conflict new_room blocker) m.rooms) = some (move_room_away_from_conflict new_room blocker) := by
              rw [dictGet_dictUpdate_self, h1]
              rfl
            obtain ⟨x, y, hxy⟩ := hpos _ hget
            exact ⟨x, y, by rw [hxy]; rfl⟩

theorem position_room_frame (m : WorldMap) (tid : String) (ref : Room) (d : Direction) :
    ((m.position_room_relative_to tid ref d).discovery_count = m.discovery_count) ∧
    ((m.position_room_relative_to tid ref d).starting_room_id = m.starting_room_id) ∧
    (∀ k, k ≠ tid →
      dictGet k (m.position_room_relative_to tid ref d).rooms = dictGet k m.rooms) ∧
    (∀ r, dictGet tid m.rooms = some r →
      ∃ x y, dictGet tid (m.position_room_relative_to tid ref d).rooms =
        some { r with x := x, y := y }) := by
  rcases h1 : dictGet tid m.rooms with _ | target
  · have heq : m.position_room_relative_to tid ref d = m := by
      simp only [WorldMap.position_room_relative_to, h1]
    rw [heq]
    exact ⟨rfl, rfl, fun k _ => rfl, fun r h => Option.noConfusion h⟩
  · have heq : m.position_room_relative_to tid ref d = WorldMap.resolveLoop { m with rooms := dictUpdate tid (fun r => { r with x := ref.x + (directionVector d ((ref.width + target.width) / 2) ((ref.height + target.height) / 2)).1, y := ref.y + (directionVector d ((ref.width + target.width) / 2) ((ref.height + target.height) / 2)).2 }) m.rooms } tid 10 := by
      simp only [WorldMap.position_room_relative_to, WorldMap.resolve_spatial_conflicts, h1]
    rw [heq]
    obtain ⟨hc, hs, hfr, hpos⟩ := resolveLoop_frame tid 10 { m with rooms := dictUpdate tid (fun r => { r with x := ref.x + (directionVector d ((ref.width + target.width) / 2) ((ref.height + target.height) / 2)).1, y := ref.y + (directionVector d ((ref.width + target.width) / 2) ((ref.height + target.height) / 2)).2 }) m.rooms }
    refine ⟨hc, hs, ?_, ?_⟩
    · intro k hk
      exact (hfr k hk).trans (dictGet_dictUpdate_ne _ _ hk)
    · intro r h
      have hr : target = r := Option.some_injective _ h
      subst hr
      have hget : dictGet tid (dictUpdate tid (fun r => { r with x := ref.x + (directionVector d ((ref.width + target.width) / 2) ((ref.height + target.height) / 2)).1, y := ref.y + (directionVector d ((ref.width + target.width) / 2) ((ref.height + target.height) / 2)).2 }) m.rooms) = some { target with x := ref.x + (directionVector d ((ref.width + target.width) / 2) ((ref.height + target.height) / 2)).1, y := ref.y + (directionVector d ((ref.width + target.width) / 2) ((ref.height + target.height) / 2)).2 } := by
        rw [dictGet_dictUpdate_self, h1]
        rfl
      obtain ⟨x, y, hxy⟩ := hpos _ hget
      exact ⟨x, y, by rw [hxy]⟩

/-! Anatomy of `connect_rooms` when both rooms exist. -/

theorem connect_rooms_anatomy (m : WorldMap) (a b : String) (d : Direction) (ra rb : Room)
    (hab : a ≠ b) (ha : dictGet a m.rooms = some ra) (hb : dictGet b m.rooms = some rb) :
    ∃ m' x y, m.connect_rooms a d b = some m' ∧
      m'.discovery_count = m.discovery_count ∧
      m'.starting_room_id = m.starting_room_id ∧
      (∀ k, k ≠ a → k ≠ b → dictGet k m'.rooms = dictGet k m.rooms) ∧
      dictGet a m'.rooms = some (ra.add_exit d (some b)) ∧
      dictGet b m'.rooms = some { rb.add_exit d.reverse (some a) with x := x, y := y } ∧
      ((rb.x = 0 ∧ rb.y = 0 ∧ rb.is_starting_room = false) ∨ (x = rb.x ∧ y = rb.y)) := by
  set M2 : WorldMap := { m with rooms := dictUpdate b (fun r => r.add_exit d.reverse (some a)) (dictUpdate a (fun r => r.add_exit d (some b)) m.rooms) } with hM2
  have hm2a : dictGet a M2.rooms = some (ra.add_exit d (some b)) := by
    rw [hM2]
    show dictGet a (dictUpdate b _ (dictUpdate a _ m.rooms)) = _
    rw [dictGet_dictUpdate_ne _ _ hab, dictGet_dictUpdate_self, ha]
    rfl
  have hm2b : dictGet b M2.rooms = some (rb.add_exit d.reverse (some a)) := by
    rw [hM2]
    show dictGet b (dictUpdate b _ (dictUpdate a _ m.rooms)) = _
    rw [dictGet_dictUpdate_self, dictGet_dictUpdate_ne _ _ (Ne.symm hab), hb]
    rfl
  have heq : m.connect_rooms a d b = some (if (rb.add_exit d.reverse (some a)).x = 0 ∧ (rb.add_exit d.reverse (some a)).y = 0 ∧ (rb.add_exit d.reverse (some a)).is_starting_room = false then M2.position_room_relative_to b (ra.add_exit d (some b)) d else M2) := by
    rw [hM2] at hm2a hm2b ⊢
    simp only [WorldMap.connect_rooms, ha, hb, get_reverse_direction, hm2a, hm2b]
  by_cases hcond : rb.x = 0 ∧ rb.y = 0 ∧ rb.is_starting_room = false
  · obtain ⟨hc, hs, hfr, hpos⟩ :=
      position_room_frame M2 b (ra.add_exit d (some b)) d
    obtain ⟨x, y, hxy⟩ := hpos _ hm2b
    refine ⟨M2.position_room_relative_to b (ra.add_exit d (some b)) d, x, y, ?_, ?_, ?_, ?_, ?_, hxy, Or.inl hcond⟩
    · rw [heq, if_pos]
      exact hcond
    · exact hc
    · exact hs
    · intro k hka hkb
      rw [hfr k hkb, hM2]
      show dictGet k (dictUpdate b _ (dictUpdate a _ m.rooms)) = _
      rw [dictGet_dictUpdate_ne _ _ hkb, dictGet_dictUpdate_ne _ _ hka]
    · rw [hfr a hab]
      exact hm2a
  · refine ⟨M2, rb.x, rb.y, ?_, rfl, rfl, ?_, hm2a, ?_, Or.inr ⟨rfl, rfl⟩⟩
    · rw [heq, if_neg]
      exact hcond
    · intro k hka hkb
      rw [hM2]
      show dictGet k (dictUpdate b _ (dictUpdate a _ m.rooms)) = _
      rw [dictGet_dictUpdate_ne _ _ hkb, dictGet_dictUpdate_ne _ _ hka]
    · rw [hm2b]
      rfl

theorem connect_rooms_self_anatomy (m : WorldMap) (a : String) (d : Direction) (ra : Room)
    (ha : dictGet a m.rooms = some ra) :
    ∃ m' ra', m.connect_rooms a d a = some m' ∧
      dictGet a m'.rooms = some ra' ∧
      dictGet d ra'.exits = some ⟨d, some a, true⟩ ∧
      dictGet d.reverse ra'.exits = some ⟨d.reverse, some a, true⟩ := by
  set R2 : Room := (ra.add_exit d (some a)).add_exit d.reverse (some a) with hR2
  have hex1 : dictGet d R2.exits = some ⟨d, some a, true⟩ := by
    rw [hR2]
    show dictGet d (dictInsert d.reverse _ (dictInsert d _ ra.exits)) = _
    rw [dictGet_dictInsert_ne _ _ (Direction.reverse_ne d).symm, dictGet_dictInsert_self]
    rfl
  have hex2 : dictGet d.reverse R2.exits = some ⟨d.reverse, some a, true⟩ := by
    rw [hR2]
    show dictGet d.reverse (dictInsert d.reverse _ (dictInsert d _ ra.exits)) = _
    rw [dictGet_dictInsert_self]
    rfl
  set M2 : WorldMap := { m with rooms := dictUpdate a (fun r => r.add_exit d.reverse (some a)) (dictUpdate a (fun r => r.add_exit d (some a)) m.rooms) } with hM2
  have hm2 : dictGet a M2.rooms = some R2 := by
    rw [hM2, hR2]
    show dictGet a (dictUpdate a _ (dictUpdate a _ m.rooms)) = _
    rw [dictGet_dictUpdate_self, dictGet_dictUpdate_self, ha]
    rfl
  have heq : m.connect_rooms a d a = some (if R2.x = 0 ∧ R2.y = 0 ∧ R2.is_starting_room = false then M2.position_room_relative_to a R2 d else M2) := by
    rw [hM2, hR2] at hm2 ⊢
    simp only [WorldMap.connect_rooms, ha, get_reverse_direction, hm2]
  by_cases hcond : R2.x = 0 ∧ R2.y = 0 ∧ R2.is_starting_room = false
  · obtain ⟨hc, hs, hfr, hpos⟩ := position_room_frame M2 a R2 d
    obtain ⟨x, y, hxy⟩ := hpos _ hm2
    refine ⟨M2.position_room_relative_to a R2 d, { R2 with x := x, y := y }, ?_, hxy, hex1, hex2⟩
    rw [heq, if_pos hcond]
  · refine ⟨M2, R2, ?_, hm2, hex1, hex2⟩
    rw [heq, if_neg hcond]

/-! Evaluation helpers for concrete runs. -/

theorem resolveLoop_no_conflict (m : WorldMap) (tid : String) (fuel : Nat) (r : Room)
    (h1 : dictGet tid m.rooms = some r) (h2 : findConflict r m.rooms = none) :
    m.resolveLoop tid fuel = m := by
  cases fuel with
  | zero => rfl
  | succ fuel => simp only [WorldMap.resolveLoop, h1, h2]

theorem position_room_eq (m : WorldMap) (tid : String) (ref : Room) (d : Direction)
    (target : Room) (h1 : dictGet tid m.rooms = some target) :
    m.position_room_relative_to tid ref d =
      WorldMap.resolveLoop { m with rooms := dictUpdate tid (fun r => { r with x := ref.x + (directionVector d ((ref.width + target.width) / 2) ((ref.height + target.height) / 2)).1, y := ref.y + (directionVector d ((ref.width + target.width) / 2) ((ref.height + target.height) / 2)).2 }) m.rooms } tid 10 := by
  simp only [WorldMap.position_room_relative_to, WorldMap.resolve_spatial_conflicts, h1]

theorem connect_rooms_eq (m : WorldMap) (a b : String) (d : Direction)
    (ra rb to_room from_room : Room)
    (ha : dictGet a m.rooms = some ra) (hb : dictGet b m.rooms = some rb)
    (h2b : dictGet b (dictUpdate b (fun r => r.add_exit d.reverse (some a)) (dictUpdate a (fun r => r.add_exit d (some b)) m.rooms)) = some to_room)
    (h2a : dictGet a (dictUpdate b (fun r => r.add_exit d.reverse (some a)) (dictUpdate a (fun r => r.add_exit d (some b)) m.rooms)) = some from_room) :
    m.connect_rooms a d b = some (if to_room.x = 0 ∧ to_room.y = 0 ∧ to_room.is_starting_room = false then WorldMap.position_room_relative_to { m with rooms := dictUpdate b (fun r => r.add_exit d.reverse (some a)) (dictUpdate a (fun r => r.add_exit d (some b)) m.rooms) } b from_room d else { m with rooms := dictUpdate b (fun r => r.add_exit d.reverse (some a)) (dictUpdate a (fun r => r.add_exit d (some b)) m.rooms) }) := by
  simp only [WorldMap.connect_rooms, ha, hb, get_reverse_direction, h2b, h2a]

/-! Concrete stores used to instantiate the hypothesised theorems. -/

/-- A 10×8 starting room at the origin. -/
def roomA : Room :=
  { id := "a", name := "A", description := "alpha", width := 10, height := 8,
    x := 0, y := 0, is_starting_room := true, discovery_order := 1 }

/-- A 6×6 non-starting room still at the (0,0) sentinel. -/
def roomB : Room :=
  { id := "b", name := "B", description := "beta", width := 6, height := 6,
    x := 0, y := 0, is_starting_room := false, discovery_order := 2 }

/-- The store holding `roomA` and `roomB`. -/
def sampleMap : WorldMap :=
  { rooms := [("a", roomA), ("b", roomB)], discovery_count := 2,
    starting_room_id := some "a" }

/-- C2: after `connectRooms(a, d, b)` on a store containing rooms `a` and `b`,
room `a` carries a discovered exit in direction `d` targeting `b` and room `b`
carries a discovered exit in direction `reverse d` targeting `a`, whatever
previously occupied those two slots. -/
theorem connectRooms_bidirectional_exits (m : WorldMap) (a b : String) (d : Direction)
    (ra rb : Room) (ha : dictGet a m.rooms = some ra) (hb : dictGet b m.rooms = some rb) :
    ∃ m', m.connect_rooms a d b = some m' ∧
      (∃ ra', dictGet a m'.rooms = some ra' ∧
        dictGet d ra'.exits = some ⟨d, some b, true⟩) ∧
      (∃ rb', dictGet b m'.rooms = some rb' ∧
        dictGet d.reverse rb'.exits = some ⟨d.reverse, some a, true⟩) := by
  by_cases hab : a = b
  · subst hab
    obtain ⟨m', ra', h1, h2, h3, h4⟩ := connect_rooms_self_anatomy m a d ra ha
    exact ⟨m', h1, ⟨ra', h2, h3⟩, ⟨ra', h2, h4⟩⟩
  · obtain ⟨m', x, y, h1, _, _, _, hga, hgb, _⟩ :=
      connect_rooms_anatomy m a b d ra rb hab ha hb
    refine ⟨m', h1, ⟨_, hga, ?_⟩, ⟨_, hgb, ?_⟩⟩
    · show dictGet d (dictInsert d _ ra.exits) = _
      exact dictGet_dictInsert_self _ _ _
    · show dictGet d.reverse (dictInsert d.reverse _ rb.exits) = _
      exact dictGet_dictInsert_self _ _ _

/-- Witness for the C2 theorem at a concrete two-room store. -/
theorem connectRooms_bidirectional_exits_witness :
    ∃ m', sampleMap.connect_rooms "a" Direction.north "b" = some m' ∧
      (∃ ra', dictGet "a" m'.rooms = some ra' ∧
        dictGet Direction.north ra'.exits =
          some ⟨Direction.north, some "b", true⟩) ∧
      (∃ rb', dictGet "b" m'.rooms = some rb' ∧
        dictGet Direction.north.reverse rb'.exits =
          some ⟨Direction.north.reverse, some "a", true⟩) :=
  connectRooms_bidirectional_exits sampleMap "a" "b" Direction.north roomA roomB rfl rfl

/-- C10 (amended to distinct endpoints): `connectRooms(a, d, b)` with `a ≠ b`
touches only the two endpoint entries — every other room keeps all its fields,
the from-room keeps its coordinates and geometry (only its exit map gains the
forward exit), and the to-room changes at most its exit map (the mirrored
reverse exit) and its coordinates; no blocking room is ever moved. -/
theorem connectRooms_frame_effect (m : WorldMap) (a b : String) (d : Direction)
    (ra rb : Room) (hab : a ≠ b)
    (ha : dictGet a m.rooms = some ra) (hb : dictGet b m.rooms = some rb) :
    ∃ m', m.connect_rooms a d b = some m' ∧
      (∀ k, k ≠ a → k ≠ b → dictGet k m'.rooms = dictGet k m.rooms) ∧
      (∃ ra', dictGet a m'.rooms = some ra' ∧ ra'.x = ra.x ∧ ra'.y = ra.y ∧
        ra'.width = ra.width ∧ ra'.height = ra.height) ∧
      (∃ rb', dictGet b m'.rooms = some rb' ∧ rb'.id = rb.id ∧ rb'.name = rb.name ∧
        rb'.description = rb.description ∧ rb'.width = rb.width ∧
        rb'.height = rb.height ∧
        rb'.exits = dictInsert d.reverse ⟨d.reverse, some a, true⟩ rb.exits ∧
        rb'.is_starting_room = rb.is_starting_room ∧
        rb'.discovery_order = rb.discovery_order) := by
  obtain ⟨m', x, y, h1, _, _, hfr, hga, hgb, _⟩ :=
    connect_rooms_anatomy m a b d ra rb hab ha hb
  exact ⟨m', h1, hfr, ⟨_, hga, rfl, rfl, rfl, rfl⟩,
    ⟨_, hgb, rfl, rfl, rfl, rfl, rfl, rfl, rfl, rfl⟩⟩

/-- Witness for the C10 theorem at a concrete two-room store. -/
theorem connectRooms_frame_effect_witness :
    ∃ m', sampleMap.connect_rooms "a" Direction.north "b" = some m' ∧
      (∀ k, k ≠ "a" → k ≠ "b" → dictGet k m'.rooms = dictGet k sampleMap.rooms) ∧
      (∃ ra', dictGet "a" m'.rooms = some ra' ∧ ra'.x = roomA.x ∧ ra'.y = roomA.y ∧
        ra'.width = roomA.width ∧ ra'.height = roomA.height) ∧
      (∃ rb', dictGet "b" m'.rooms = some rb' ∧ rb'.id = roomB.id ∧
        rb'.name = roomB.name ∧ rb'.description = roomB.description ∧
        rb'.width = roomB.width ∧ rb'.height = roomB.height ∧
        rb'.exits = dictInsert Direction.north.reverse
          ⟨Direction.north.reverse, some "a", true⟩ roomB.exits ∧
        rb'.is_starting_room = roomB.is_starting_room ∧
        rb'.discovery_order = roomB.discovery_order) :=
  connectRooms_frame_effect sampleMap "a" "b" Direction.north roomA roomB
    (by decide) rfl rfl

/-- A lone 2×2 non-starting room at the (0,0) sentinel. -/
def roomSelf : Room :=
  { id := "s", name := "S", description := "sigma", width := 2, height := 2,
    x := 0, y := 0, is_starting_room := false, discovery_order := 1 }

/-- The store holding only `roomSelf`. -/
def selfMap : WorldMap :=
  { rooms := [("s", roomSelf)], discovery_count := 1, starting_room_id := some "s" }

/-- `roomSelf` after the self-connection adds its forward and reverse exits. -/
def roomSelfExits : Room :=
  (roomSelf.add_exit Direction.north (some "s")).add_exit Direction.north.reverse (some "s")

/-- `roomSelfExits` as placed by the pipeline (offset north by one full height). -/
noncomputable def roomSelfPlaced : Room :=
  { roomSelfExits with
      x := roomSelfExits.x + (directionVector Direction.north ((roomSelfExits.width + roomSelfExits.width) / 2) ((roomSelfExits.height + roomSelfExits.height) / 2)).1,
      y := roomSelfExits.y + (directionVector Direction.north ((roomSelfExits.width + roomSelfExits.width) / 2) ((roomSelfExits.height + roomSelfExits.height) / 2)).2 }

/-- `selfMap` after the self-connection adds both exits. -/
def selfMapExits : WorldMap :=
  { selfMap with rooms := dictUpdate "s" (fun r => r.add_exit Direction.north.reverse (some "s")) (dictUpdate "s" (fun r => r.add_exit Direction.north (some "s")) selfMap.rooms) }

/-- `selfMapExits` after the placement step moves its one room. -/
noncomputable def selfMapPlaced : WorldMap :=
  { selfMapExits with rooms := dictUpdate "s" (fun _ => roomSelfPlaced) selfMapExits.rooms }

/-- C10 counterexample: `connectRooms("s", north, "s")` — a call on a store
where both (identical) endpoint rooms exist — moves the from-room: its `y`
coordinate goes from 0 to 2, so the from-room's coordinates are not unchanged. -/
theorem connectRooms_frame_effect_cex :
    (selfMap.connect_rooms "s" Direction.north "s").map
      (fun m' => (dictGet "s" m'.rooms).map (fun r => r.y)) = some (some 2) ∧
    roomSelf.y = 0 := by
  refine ⟨?_, rfl⟩
  have h1 : selfMap.connect_rooms "s" Direction.north "s" =
      some (selfMapExits.position_room_relative_to "s" roomSelfExits Direction.north) := by
    rw [connect_rooms_eq selfMap "s" "s" Direction.north roomSelf roomSelf
        roomSelfExits roomSelfExits rfl rfl rfl rfl,
      if_pos ⟨rfl, rfl, rfl⟩]
    rfl
  have h3 : selfMapExits.position_room_relative_to "s" roomSelfExits Direction.north =
      WorldMap.resolveLoop selfMapPlaced "s" 10 :=
    position_room_eq selfMapExits "s" roomSelfExits Direction.north roomSelfExits rfl
  have h4 : WorldMap.resolveLoop selfMapPlaced "s" 10 = selfMapPlaced :=
    resolveLoop_no_conflict selfMapPlaced "s" 10 roomSelfPlaced rfl rfl
  rw [h1, h3, h4]
  show some (some ((0 : ℝ) + ((2 : ℝ) + 2) / 2)) = some (some 2)
  norm_num

/-- C3 counterexample: `add_room` with `width = 0` (non-positive) does not
fail and does not reject the room — the room is added and the discovery
counter advances. -/
theorem addRoom_invalid_geometry_cex :
    (dictGet "a" (WorldMap.empty.add_room "a" "A" "alpha" 0 5 true).1.rooms).isSome = true ∧
    (WorldMap.empty.add_room "a" "A" "alpha" 0 5 true).1.discovery_count = 1 :=
  ⟨rfl, rfl⟩

/-- C3 (amended): `add_room` performs no geometry validation — with a fresh id
the room is always added (the call cannot fail), carrying exactly the given
width and height even when they are non-positive. -/
theorem addRoom_no_geometry_validation (m : WorldMap)
    (room_id name description : String) (width height : ℝ) (is_starting : Bool)
    (hfresh : dictGet room_id m.rooms = none) :
    ∃ r, dictGet room_id
        (m.add_room room_id name description width height is_starting).1.rooms = some r ∧
      r.width = width ∧ r.height = height := by
  cases hbranch : (is_starting || m.rooms.isEmpty) with
  | true =>
      simp only [WorldMap.add_room, hfresh, hbranch, if_true]
      exact ⟨_, dictGet_dictInsert_self _ _ _, rfl, rfl⟩
  | false =>
      simp only [WorldMap.add_room, hfresh, hbranch, if_false]
      exact ⟨_, dictGet_dictInsert_self _ _ _, rfl, rfl⟩

/-- Witness for the amended C3 theorem: a 0×5 room is accepted. -/
theorem addRoom_no_geometry_validation_witness :
    ∃ r, dictGet "a" (WorldMap.empty.add_room "a" "A" "alpha" 0 5 true).1.rooms = some r ∧
      r.width = 0 ∧ r.height = 5 :=
  addRoom_no_geometry_validation WorldMap.empty "a" "A" "alpha" 0 5 true rfl

/-- C7 counterexample: `discover_exit` on an absent room id does not fail with
any error — it silently returns the store unchanged (the operation is total). -/
theorem discoverExit_unknown_room_cex :
    WorldMap.empty.discover_exit "a" Direction.north = WorldMap.empty :=
  rfl

/-- C7 (amended): `discover_exit` is a silent no-op when the room id is
absent; when the id is present it overwrites the slot for `direction` with an
undiscovered exit with no target, leaving the room's other exit slots and
coordinates, and every other room, unchanged. -/
theorem discoverExit_spec (m : WorldMap) (room_id : String) (direction : Direction) :
    (dictGet room_id m.rooms = none → m.discover_exit room_id direction = m) ∧
    (∀ k, k ≠ room_id →
      dictGet k (m.discover_exit room_id direction).rooms = dictGet k m.rooms) ∧
    (∀ r, dictGet room_id m.rooms = some r →
      ∃ r', dictGet room_id (m.discover_exit room_id direction).rooms = some r' ∧
        dictGet direction r'.exits = some ⟨direction, none, false⟩ ∧
        (∀ d', d' ≠ direction → dictGet d' r'.exits = dictGet d' r.exits) ∧
        r'.x = r.x ∧ r'.y = r.y) := by
  rcases h : dictGet room_id m.rooms with _ | r0
  · have heq : m.discover_exit room_id direction = m := by
      simp only [WorldMap.discover_exit, h]
    rw [heq]
    exact ⟨fun _ => rfl, fun k _ => rfl, fun r hr => Option.noConfusion hr⟩
  · have heq : m.discover_exit room_id direction =
        { m with rooms := dictUpdate room_id (fun r => r.add_exit direction) m.rooms } := by
      simp only [WorldMap.discover_exit, h]
    rw [heq]
    refine ⟨fun hn => Option.noConfusion hn, ?_, ?_⟩
    · intro k hk
      exact dictGet_dictUpdate_ne _ _ hk
    · intro r hr
      have hrr : r0 = r := Option.some_injective _ hr
      subst hrr
      refine ⟨r0.add_exit direction, ?_, ?_, ?_, rfl, rfl⟩
      · show dictGet room_id (dictUpdate room_id _ m.rooms) = _
        rw [dictGet_dictUpdate_self, h]
        rfl
      · show dictGet direction (dictInsert direction _ r0.exits) = _
        exact dictGet_dictInsert_self _ _ _
      · intro d' hd'
        show dictGet d' (dictInsert direction _ r0.exits) = _
        exact dictGet_dictInsert_ne _ _ hd'

/-- Witness for the amended C7 theorem at a concrete store. -/
theorem discoverExit_spec_witness :
    ∃ r', dictGet "a" (sampleMap.discover_exit "a" Direction.east).rooms = some r' ∧
      dictGet Direction.east r'.exits = some ⟨Direction.east, none, false⟩ := by
  obtain ⟨-, -, h⟩ := discoverExit_spec sampleMap "a" Direction.east
  obtain ⟨r', h1, h2, -⟩ := h roomA rfl
  exact ⟨r', h1, h2⟩

/-- `roomA` with the forward north exit of Scenario B. -/
def roomAExit : Room := roomA.add_exit Direction.north (some "b")

/-- `roomB` with the mirrored reverse exit of Scenario B. -/
def roomBExit : Room := roomB.add_exit Direction.north.reverse (some "a")

/-- `sampleMap` after both exit updates of `connect_rooms "a" north "b"`. -/
def sampleMapExits : WorldMap :=
  { sampleMap with rooms := dictUpdate "b" (fun r => r.add_exit Direction.north.reverse (some "a")) (dictUpdate "a" (fun r => r.add_exit Direction.north (some "b")) sampleMap.rooms) }

/-- Room `b` as placed north of room `a`: offset by the sum of half-extents. -/
noncomputable def roomBPlaced : Room :=
  { roomBExit with
      x := roomAExit.x + (directionVector Direction.north ((roomAExit.width + roomBExit.width) / 2) ((roomAExit.height + roomBExit.height) / 2)).1,
      y := roomAExit.y + (directionVector Direction.north ((roomAExit.width + roomBExit.width) / 2) ((roomAExit.height + roomBExit.height) / 2)).2 }

/-- `sampleMapExits` after the placement step moves room `b`. -/
noncomputable def sampleMapPlaced : WorldMap :=
  { sampleMapExits with rooms := dictUpdate "b" (fun _ => roomBPlaced) sampleMapExits.rooms }

/-- C6: Scenario B — from an empty store, `addRoom("a",...,10,8,true)`,
`addRoom("b",...,6,6,false)`, `connectRooms("a", north, "b")` leaves room `b`
at `(0, 7)`: half-heights 4 + 3 give edge-touching placement, and the conflict
resolver leaves it there because touching edges do not count as overlap. -/
theorem scenarioB_edge_touching :
    (((((WorldMap.empty.add_room "a" "A" "alpha" 10 8 true).1).add_room "b" "B" "beta" 6 6 false).1.connect_rooms "a" Direction.north "b").map
      (fun m' => (dictGet "b" m'.rooms).map (fun r => (r.x, r.y)))) = some (some (0, 7)) := by
  show (sampleMap.connect_rooms "a" Direction.north "b").map
    (fun m' => (dictGet "b" m'.rooms).map (fun r => (r.x, r.y))) = some (some (0, 7))
  have h1 : sampleMap.connect_rooms "a" Direction.north "b" =
      some (sampleMapExits.position_room_relative_to "b" roomAExit Direction.north) := by
    rw [connect_rooms_eq sampleMap "a" "b" Direction.north roomA roomB
        roomBExit roomAExit rfl rfl rfl rfl,
      if_pos ⟨rfl, rfl, rfl⟩]
    rfl
  have h3 : sampleMapExits.position_room_relative_to "b" roomAExit Direction.north =
      WorldMap.resolveLoop sampleMapPlaced "b" 10 :=
    position_room_eq sampleMapExits "b" roomAExit Direction.north roomBExit rfl
  have hno : ¬ rooms_overlap roomBPlaced roomAExit := by
    intro hov
    refine hov (Or.inr (Or.inr (Or.inr ?_)))
    show roomBPlaced.y - roomBPlaced.height / 2 ≥ roomAExit.y + roomAExit.height / 2
    show (0 : ℝ) + ((8 : ℝ) + 6) / 2 - 6 / 2 ≥ (0 : ℝ) + (8 : ℝ) / 2
    norm_num
  have hnc : findConflict roomBPlaced sampleMapPlaced.rooms = none := by
    have hlist : sampleMapPlaced.rooms = [("a", roomAExit), ("b", roomBPlaced)] := rfl
    rw [hlist]
    show (if roomAExit.id = roomBPlaced.id then findConflict roomBPlaced [("b", roomBPlaced)] else if rooms_overlap roomBPlaced roomAExit then some roomAExit else findConflict roomBPlaced [("b", roomBPlaced)]) = none
    rw [if_neg (by decide : ¬ (roomAExit.id = roomBPlaced.id)), if_neg hno]
    rfl
  have h4 : WorldMap.resolveLoop sampleMapPlaced "b" 10 = sampleMapPlaced :=
    resolveLoop_no_conflict sampleMapPlaced "b" 10 roomBPlaced rfl hnc
  rw [h1, h3, h4]
  show some (some (((0 : ℝ) + 0, (0 : ℝ) + ((8 : ℝ) + 6) / 2) : ℝ × ℝ)) = some (some (0, 7))
  norm_num

/-! Anatomy of `add_room`. -/

theorem add_room_anatomy (m : WorldMap) (room_id name description : String)
    (width height : ℝ) (s : Bool) :
    (∀ rex, dictGet room_id m.rooms = some rex →
      (m.add_room room_id name description width height s).1 = m) ∧
    (dictGet room_id m.rooms = none →
      ∃ room,
        (m.add_room room_id name description width height s).1.rooms =
          dictInsert room_id room m.rooms ∧
        room.is_starting_room = s ∧ room.width = width ∧ room.height = height ∧
        room.id = room_id ∧
        room.discovery_order = m.discovery_count + 1 ∧
        (m.add_room room_id name description width height s).1.discovery_count =
          m.discovery_count + 1 ∧
        ((s = true ∨ m.rooms = []) → room.x = 0 ∧ room.y = 0 ∧
          (m.add_room room_id name description width height s).1.starting_room_id =
            some room_id) ∧
        (s = false → m.rooms ≠ [] →
          room.x = 0 ∧ room.y = 0 ∧
          (m.add_room room_id name description width height s).1.starting_room_id =
            m.starting_room_id)) := by
  constructor
  · intro rex hex
    simp only [WorldMap.add_room, hex]
  · intro hi
    cases hbranch : (s || m.rooms.isEmpty) with
    | true =>
        have heq : (m.add_room room_id name description width height s).1 =
            { rooms := dictInsert room_id { id := room_id, name := name, description := description, width := width, height := height, x := 0, y := 0, exits := [], is_starting_room := s, discovery_order := m.discovery_count + 1 } m.rooms, discovery_count := m.discovery_count + 1, starting_room_id := some room_id } := by
          simp only [WorldMap.add_room, hi, hbranch, if_true]
        rw [heq]
        refine ⟨_, rfl, rfl, rfl, rfl, rfl, rfl, rfl, fun _ => ⟨rfl, rfl, rfl⟩, ?_⟩
        intro hs hne
        rw [hs] at hbranch
        simp only [Bool.false_or, List.isEmpty_iff] at hbranch
        exact absurd hbranch hne
    | false =>
        have heq : (m.add_room room_id name description width height s).1 =
            { m with rooms := dictInsert room_id { id := room_id, name := name, description := description, width := width, height := height, x := 0, y := 0, exits := [], is_starting_room := s, discovery_order := m.discovery_count + 1 } m.rooms, discovery_count := m.discovery_count + 1 } := by
          simp only [WorldMap.add_room, hi, hbranch, Bool.false_eq_true, if_false]
        rw [heq]
        simp only [Bool.or_eq_false_iff] at hbranch
        refine ⟨_, rfl, rfl, rfl, rfl, rfl, rfl, rfl, ?_, fun _ _ => ⟨rfl, rfl, rfl⟩⟩
        intro hor
        rcases hor with hs | hempty
        · rw [hs] at hbranch
          exact absurd hbranch.1 (by simp)
        · rw [hempty] at hbranch
          exact absurd hbranch.2 (by simp [List.isEmpty])

/-! Rooms flagged `is_starting_room` keep their coordinates. -/

theorem dictGet_dictUpdate_addExit (k i : String) (d : Direction) (t : Option String)
    (l : List (String × Room)) (r : Room) (h : dictGet k l = some r) :
    ∃ r2, dictGet k (dictUpdate i (fun rr => rr.add_exit d t) l) = some r2 ∧
      r2.x = r.x ∧ r2.y = r.y ∧ r2.is_starting_room = r.is_starting_room := by
  by_cases hk : k = i
  · subst hk
    rw [dictGet_dictUpdate_self, h]
    exact ⟨r.add_exit d t, rfl, rfl, rfl, rfl⟩
  · rw [dictGet_dictUpdate_ne _ _ hk]
    exact ⟨r, h, rfl, rfl, rfl⟩

theorem connect_rooms_preserves_flagged (m : WorldMap) (a b : String) (d : Direction)
    (k : String) (r : Room) (h : dictGet k m.rooms = some r)
    (hflag : r.is_starting_room = true) :
    ∀ m', m.connect_rooms a d b = some m' →
      ∃ r', dictGet k m'.rooms = some r' ∧ r'.x = r.x ∧ r'.y = r.y ∧
        r'.is_starting_room = true := by
  intro m' hm'
  rcases ha : dictGet a m.rooms with _ | ra
  · rcases hb : dictGet b m.rooms with _ | rb <;>
      · simp only [WorldMap.connect_rooms, ha, hb] at hm'
        exact Option.noConfusion hm'
  rcases hb : dictGet b m.rooms with _ | rb
  · simp only [WorldMap.connect_rooms, ha, hb] at hm'
    exact Option.noConfusion hm'
  obtain ⟨r1, h1, h1x, h1y, h1f⟩ := dictGet_dictUpdate_addExit k a d (some b) m.rooms r h
  obtain ⟨r2, h2, h2x, h2y, h2f⟩ :=
    dictGet_dictUpdate_addExit k b d.reverse (some a) _ r1 h1
  obtain ⟨rb1, hb1, -, -, -⟩ := dictGet_dictUpdate_addExit b a d (some b) m.rooms rb hb
  obtain ⟨to2, hb2, -, -, -⟩ :=
    dictGet_dictUpdate_addExit b b d.reverse (some a) _ rb1 hb1
  obtain ⟨ra1, ha1, -, -, -⟩ := dictGet_dictUpdate_addExit a a d (some b) m.rooms ra ha
  obtain ⟨from2, ha2, -, -, -⟩ :=
    dictGet_dictUpdate_addExit a b d.reverse (some a) _ ra1 ha1
  rw [connect_rooms_eq m a b d ra rb to2 from2 ha hb hb2 ha2] at hm'
  have hm2 := Option.some_injective _ hm'
  by_cases hcond : to2.x = 0 ∧ to2.y = 0 ∧ to2.is_starting_room = false
  · rw [if_pos hcond] at hm2
    subst hm2
    obtain ⟨-, -, hfr, -⟩ :=
      position_room_frame { m with rooms := dictUpdate b (fun r => r.add_exit d.reverse (some a)) (dictUpdate a (fun r => r.add_exit d (some b)) m.rooms) } b from2 d
    by_cases hk : k = b
    · subst hk
      have hrto : r2 = to2 := by
        rw [h2] at hb2
        exact Option.some_injective _ hb2
      rw [hrto] at h2f
      rw [hcond.2.2] at h2f
      rw [h1f, hflag] at h2f
      exact absurd h2f.symm (by simp)
    · exact ⟨r2, (hfr k hk).trans h2, h2x.trans h1x, h2y.trans h1y,
        h2f.trans (h1f.trans hflag)⟩
  · rw [if_neg hcond] at hm2
    subst hm2
    exact ⟨r2, h2, h2x.trans h1x, h2y.trans h1y, h2f.trans (h1f.trans hflag)⟩

theorem applyOp_preserves_flagged (m : WorldMap) (op : Op) (k : String) (r : Room)
    (h : dictGet k m.rooms = some r) (hflag : r.is_starting_room = true) :
    ∃ r', dictGet k (applyOp m op).rooms = some r' ∧ r'.x = r.x ∧ r'.y = r.y ∧
      r'.is_starting_room = true := by
  cases op with
  | addRoom i n ds w hh s =>
      simp only [applyOp]
      rcases hi : dictGet i m.rooms with _ | rex
      · obtain ⟨-, hnew⟩ := add_room_anatomy m i n ds w hh s
        obtain ⟨room, hrooms, -⟩ := hnew hi
        rw [hrooms]
        have hik : k ≠ i := by
          intro he
          rw [he, hi] at h
          cases h
        rw [dictGet_dictInsert_ne _ _ hik]
        exact ⟨r, h, rfl, rfl, hflag⟩
      · obtain ⟨hex, -⟩ := add_room_anatomy m i n ds w hh s
        rw [hex rex hi]
        exact ⟨r, h, rfl, rfl, hflag⟩
  | connectRooms f d t =>
      simp only [applyOp]
      rcases hc : m.connect_rooms f d t with _ | m'
      · simp only [Option.getD]
        exact ⟨r, h, rfl, rfl, hflag⟩
      · simp only [Option.getD]
        exact connect_rooms_preserves_flagged m f t d k r h hflag m' hc
  | discoverExit i d =>
      simp only [applyOp, WorldMap.discover_exit]
      rcases hi : dictGet i m.rooms with _ | rex
      · simp only [hi]
        exact ⟨r, h, rfl, rfl, hflag⟩
      · simp only [hi]
        obtain ⟨r2, h2, h2x, h2y, h2f⟩ := dictGet_dictUpdate_addExit k i d none m.rooms r h
        exact ⟨r2, h2, h2x, h2y, h2f.trans hflag⟩

theorem applyOps_preserves_flagged (ops : List Op) (m : WorldMap) (k : String) (r : Room)
    (h : dictGet k m.rooms = some r) (hflag : r.is_starting_room = true) :
    ∃ r', dictGet k (applyOps m ops).rooms = some r' ∧ r'.x = r.x ∧ r'.y = r.y ∧
      r'.is_starting_room = true := by
  induction ops generalizing m r with
  | nil => exact ⟨r, h, rfl, rfl, hflag⟩
  | cons op ops ih =>
      obtain ⟨r1, h1, h1x, h1y, h1f⟩ := applyOp_preserves_flagged m op k r h hflag
      obtain ⟨r', h', hx', hy', hf'⟩ := ih (applyOp m op) r1 h1 h1f
      exact ⟨r', h', hx'.trans h1x, hy'.trans h1y, hf'⟩

/-- C9 (amended to flag-marked starting rooms): a room created with
`isStarting = true` is placed at (0,0), and any room whose `isStartingRoom`
flag is set keeps its coordinates across every later `addRoom`,
`connectRooms` and `discoverExit` call: the sentinel placement branch skips
flagged rooms, so the conflict resolver is never invoked with one as the room
being relocated. -/
theorem startingRoom_flagged_immovable (m : WorldMap) (ops : List Op)
    (room_id name description : String) (width height : ℝ)
    (hfresh : dictGet room_id m.rooms = none) :
    (∃ r, dictGet room_id
        (m.add_room room_id name description width height true).1.rooms = some r ∧
      r.x = 0 ∧ r.y = 0 ∧ r.is_starting_room = true) ∧
    (∀ k r, dictGet k m.rooms = some r → r.is_starting_room = true →
      ∃ r', dictGet k (applyOps m ops).rooms = some r' ∧
        r'.x = r.x ∧ r'.y = r.y) := by
  constructor
  · obtain ⟨-, hnew⟩ := add_room_anatomy m room_id name description width height true
    obtain ⟨room, hrooms, hs, -, -, -, -, -, horig, -⟩ := hnew hfresh
    obtain ⟨hx, hy, -⟩ := horig (Or.inl rfl)
    rw [hrooms]
    exact ⟨room, dictGet_dictInsert_self _ _ _, hx, hy, hs⟩
  · intro k r h hflag
    obtain ⟨r', h', hx, hy, -⟩ := applyOps_preserves_flagged ops m k r h hflag
    exact ⟨r', h', hx, hy⟩

/-- Witness for the amended C9 theorem at a concrete store and op list. -/
theorem startingRoom_flagged_immovable_witness :
    ∃ r', dictGet "a"
        (applyOps sampleMap [Op.discoverExit "a" Direction.up]).rooms = some r' ∧
      r'.x = roomA.x ∧ r'.y = roomA.y := by
  obtain ⟨-, h⟩ := startingRoom_flagged_immovable sampleMap
    [Op.discoverExit "a" Direction.up] "c" "C" "gamma" 1 1 rfl
  exact h "a" roomA rfl rfl

/-- The first room of the C9 counterexample: non-starting, so the flag stays
false even though it becomes `starting_room_id`. -/
def roomCA : Room :=
  { id := "a", name := "A", description := "alpha", width := 2, height := 2,
    x := 0, y := 0, is_starting_room := false, discovery_order := 1 }

/-- The second room of the C9 counterexample. -/
def roomCB : Room :=
  { id := "b", name := "B", description := "beta", width := 2, height := 2,
    x := 0, y := 0, is_starting_room := false, discovery_order := 2 }

/-- The store after both C9-counterexample `add_room` calls. -/
def mapCC : WorldMap :=
  { rooms := [("a", roomCA), ("b", roomCB)], discovery_count := 2,
    starting_room_id := some "a" }

/-- `roomCA` with the reverse exit added by `connect_rooms "b" north "a"`. -/
def roomCAExit : Room := roomCA.add_exit Direction.north.reverse (some "b")

/-- `roomCB` with the forward exit added by `connect_rooms "b" north "a"`. -/
def roomCBExit : Room := roomCB.add_exit Direction.north (some "a")

/-- `mapCC` after both exit updates of `connect_rooms "b" north "a"`. -/
def mapCCExits : WorldMap :=
  { mapCC with rooms := dictUpdate "a" (fun r => r.add_exit Direction.north.reverse (some "b")) (dictUpdate "b" (fun r => r.add_exit Direction.north (some "a")) mapCC.rooms) }

/-- The starting room `"a"` as re-placed north of room `"b"`. -/
noncomputable def roomCAPlaced : Room :=
  { roomCAExit with
      x := roomCBExit.x + (directionVector Direction.north ((roomCBExit.width + roomCAExit.width) / 2) ((roomCBExit.height + roomCAExit.height) / 2)).1,
      y := roomCBExit.y + (directionVector Direction.north ((roomCBExit.width + roomCAExit.width) / 2) ((roomCBExit.height + roomCAExit.height) / 2)).2 }

/-- `mapCCExits` after the placement step moves room `"a"`. -/
noncomputable def mapCCPlaced : WorldMap :=
  { mapCCExits with rooms := dictUpdate "a" (fun _ => roomCAPlaced) mapCCExits.rooms }

/-- C9 counterexample: starting from an empty store, `addRoom("a",...,false)`
makes `"a"` the starting room (`starting_room_id = "a"`, placed at (0,0)) but
leaves its flag false; the later `connectRooms("b", north, "a")` then moves
the starting room to `(0, 2)` — its coordinates do change. -/
theorem startingRoom_immovable_cex :
    mapCC.starting_room_id = some "a" ∧
    ((WorldMap.empty.add_room "a" "A" "alpha" 2 2 false).1.add_room "b" "B" "beta" 2 2 false).1 = mapCC ∧
    (dictGet "a" mapCC.rooms).map (fun r => r.y) = some 0 ∧
    (mapCC.connect_rooms "b" Direction.north "a").map
      (fun m' => ((dictGet "a" m'.rooms).map (fun r => r.y), m'.starting_room_id)) =
      some (some 2, some "a") := by
  refine ⟨rfl, rfl, rfl, ?_⟩
  have h1 : mapCC.connect_rooms "b" Direction.north "a" =
      some (mapCCExits.position_room_relative_to "a" roomCBExit Direction.north) := by
    rw [connect_rooms_eq mapCC "b" "a" Direction.north roomCB roomCA
        roomCAExit roomCBExit rfl rfl rfl rfl,
      if_pos ⟨rfl, rfl, rfl⟩]
    rfl
  have h3 : mapCCExits.position_room_relative_to "a" roomCBExit Direction.north =
      WorldMap.resolveLoop mapCCPlaced "a" 10 :=
    position_room_eq mapCCExits "a" roomCBExit Direction.north roomCAExit rfl
  have hno : ¬ rooms_overlap roomCAPlaced roomCBExit := by
    intro hov
    refine hov (Or.inr (Or.inr (Or.inr ?_)))
    show roomCAPlaced.y - roomCAPlaced.height / 2 ≥ roomCBExit.y + roomCBExit.height / 2
    show (0 : ℝ) + ((2 : ℝ) + 2) / 2 - 2 / 2 ≥ (0 : ℝ) + (2 : ℝ) / 2
    norm_num
  have hnc : findConflict roomCAPlaced mapCCPlaced.rooms = none := by
    have hstep : findConflict roomCAPlaced mapCCPlaced.rooms =
        findConflict roomCAPlaced [("b", roomCBExit)] := rfl
    rw [hstep]
    show (if roomCBExit.id = roomCAPlaced.id then findConflict roomCAPlaced [] else if rooms_overlap roomCAPlaced roomCBExit then some roomCBExit else findConflict roomCAPlaced []) = none
    rw [if_neg (by decide : ¬ (roomCBExit.id = roomCAPlaced.id)), if_neg hno]
    rfl
  have h4 : WorldMap.resolveLoop mapCCPlaced "a" 10 = mapCCPlaced :=
    resolveLoop_no_conflict mapCCPlaced "a" 10 roomCAPlaced rfl hnc
  rw [h1, h3, h4]
  show some ((some ((0 : ℝ) + ((2 : ℝ) + 2) / 2), some "a")) = some (some 2, some "a")
  norm_num

/-! The starting-room id always resolves to a stored room. -/

theorem connect_rooms_preserves_presence (m : WorldMap) (a b : String) (d : Direction) :
    ∀ m', m.connect_rooms a d b = some m' →
      m'.starting_room_id = m.starting_room_id ∧
      ∀ k r, dictGet k m.rooms = some r → ∃ r', dictGet k m'.rooms = some r' := by
  intro m' hm'
  rcases ha : dictGet a m.rooms with _ | ra
  · rcases hb : dictGet b m.rooms with _ | rb <;>
      · simp only [WorldMap.connect_rooms, ha, hb] at hm'
        exact Option.noConfusion hm'
  rcases hb : dictGet b m.rooms with _ | rb
  · simp only [WorldMap.connect_rooms, ha, hb] at hm'
    exact Option.noConfusion hm'
  obtain ⟨rb1, hb1, -, -, -⟩ := dictGet_dictUpdate_addExit b a d (some b) m.rooms rb hb
  obtain ⟨to2, hb2, -, -, -⟩ :=
    dictGet_dictUpdate_addExit b b d.reverse (some a) _ rb1 hb1
  obtain ⟨ra1, ha1, -, -, -⟩ := dictGet_dictUpdate_addExit a a d (some b) m.rooms ra ha
  obtain ⟨from2, ha2, -, -, -⟩ :=
    dictGet_dictUpdate_addExit a b d.reverse (some a) _ ra1 ha1
  rw [connect_rooms_eq m a b d ra rb to2 from2 ha hb hb2 ha2] at hm'
  have hm2 := Option.some_injective _ hm'
  by_cases hcond : to2.x = 0 ∧ to2.y = 0 ∧ to2.is_starting_room = false
  · rw [if_pos hcond] at hm2
    subst hm2
    obtain ⟨-, hs, hfr, hpos⟩ :=
      position_room_frame { m with rooms := dictUpdate b (fun r => r.add_exit d.reverse (some a)) (dictUpdate a (fun r => r.add_exit d (some b)) m.rooms) } b from2 d
    refine ⟨hs, ?_⟩
    intro k r h
    obtain ⟨r1, h1, -, -, -⟩ := dictGet_dictUpdate_addExit k a d (some b) m.rooms r h
    obtain ⟨r2, h2, -, -, -⟩ := dictGet_dictUpdate_addExit k b d.reverse (some a) _ r1 h1
    by_cases hk : k = b
    · subst hk
      obtain ⟨x, y, hxy⟩ := hpos r2 h2
      exact ⟨_, hxy⟩
    · exact ⟨r2, (hfr k hk).trans h2⟩
  · rw [if_neg hcond] at hm2
    subst hm2
    refine ⟨rfl, ?_⟩
    intro k r h
    obtain ⟨r1, h1, -, -, -⟩ := dictGet_dictUpdate_addExit k a d (some b) m.rooms r h
    obtain ⟨r2, h2, -, -, -⟩ := dictGet_dictUpdate_addExit k b d.reverse (some a) _ r1 h1
    exact ⟨r2, h2⟩

/-- The starting-room invariant preserved by one driver call. -/
theorem applyOp_sid_invariant (m : WorldMap) (op : Op)
    (hP : m.rooms = [] ∨
      ∃ sid r, m.starting_room_id = some sid ∧ dictGet sid m.rooms = some r) :
    (applyOp m op).rooms = [] ∨
    ∃ sid r, (applyOp m op).starting_room_id = some sid ∧
      dictGet sid (applyOp m op).rooms = some r := by
  cases op with
  | addRoom i n ds w hh s =>
      simp only [applyOp]
      rcases hi : dictGet i m.rooms with _ | rex
      · obtain ⟨-, hnew⟩ := add_room_anatomy m i n ds w hh s
        obtain ⟨room, hrooms, -, -, -, -, -, -, horig, hkeep⟩ := hnew hi
        by_cases hbr : s = true ∨ m.rooms = []
        · obtain ⟨-, -, hsid⟩ := horig hbr
          refine Or.inr ⟨i, room, hsid, ?_⟩
          rw [hrooms]
          exact dictGet_dictInsert_self _ _ _
        · push_neg at hbr
          obtain ⟨hs, hne⟩ := hbr
          obtain ⟨-, -, hsid⟩ := hkeep (Bool.not_eq_true _ ▸ hs : s = false) hne
          rcases hP with hP | ⟨sid, r, hsid0, hget⟩
          · exact absurd hP hne
          · refine Or.inr ⟨sid, r, hsid.trans hsid0, ?_⟩
            rw [hrooms]
            have : sid ≠ i := by
              intro he
              rw [he, hi] at hget
              cases hget
            rw [dictGet_dictInsert_ne _ _ this]
            exact hget
      · obtain ⟨hex, -⟩ := add_room_anatomy m i n ds w hh s
        rw [hex rex hi]
        exact hP
  | connectRooms f d t =>
      simp only [applyOp]
      rcases hc : m.connect_rooms f d t with _ | m'
      · simp only [Option.getD]
        exact hP
      · simp only [Option.getD]
        rcases hP with hP | ⟨sid, r, hsid, hget⟩
        · simp only [WorldMap.connect_rooms, hP, dictGet] at hc
          exact Option.noConfusion hc
        · obtain ⟨hsid', hpres⟩ := connect_rooms_preserves_presence m f t d m' hc
          obtain ⟨r', hr'⟩ := hpres sid r hget
          exact Or.inr ⟨sid, r', hsid'.trans hsid, hr'⟩
  | discoverExit i d =>
      simp only [applyOp, WorldMap.discover_exit]
      rcases hi : dictGet i m.rooms with _ | rex
      · simp only [hi]
        exact hP
      · simp only [hi]
        rcases hP with hP | ⟨sid, r, hsid, hget⟩
        · rw [hP] at hi
          cases hi
        · obtain ⟨r2, h2, -, -, -⟩ := dictGet_dictUpdate_addExit sid i d none m.rooms r hget
          exact Or.inr ⟨sid, r2, hsid, h2⟩

/-- The starting-room invariant over whole call sequences. -/
theorem applyOps_sid_invariant (ops : List Op) (m : WorldMap)
    (hP : m.rooms = [] ∨
      ∃ sid r, m.starting_room_id = some sid ∧ dictGet sid m.rooms = some r) :
    (applyOps m ops).rooms = [] ∨
    ∃ sid r, (applyOps m ops).starting_room_id = some sid ∧
      dictGet sid (applyOps m ops).rooms = some r := by
  induction ops generalizing m with
  | nil => exact hP
  | cons op ops ih => exact ih (applyOp m op) (applyOp_sid_invariant m op hP)

/-- C4 (amended): for every sequence of `addRoom`, `connectRooms` and
`discoverExit` calls starting from an empty store, once the store is
non-empty `starting_room_id` is set and names a room present in the store.
(The original "exactly one room has `isStartingRoom = true`" does not hold:
the flag mirrors only the `isStarting` argument of each creating call.) -/
theorem startingRoom_tracks_store (ops : List Op)
    (hne : (applyOps WorldMap.empty ops).rooms ≠ []) :
    ∃ sid r, (applyOps WorldMap.empty ops).starting_room_id = some sid ∧
      dictGet sid (applyOps WorldMap.empty ops).rooms = some r := by
  rcases applyOps_sid_invariant ops WorldMap.empty (Or.inl rfl) with h | h
  · exact absurd h hne
  · exact h

/-- Witness for the amended C4 theorem at a concrete op list. -/
theorem startingRoom_tracks_store_witness :
    ∃ sid r,
      (applyOps WorldMap.empty [Op.addRoom "a" "A" "alpha" 3 3 true]).starting_room_id =
        some sid ∧
      dictGet sid (applyOps WorldMap.empty [Op.addRoom "a" "A" "alpha" 3 3 true]).rooms =
        some r :=
  startingRoom_tracks_store [Op.addRoom "a" "A" "alpha" 3 3 true]
    (fun h => List.noConfusion h)

/-- C4 counterexample: after one `addRoom("a",...,isStarting := false)` on an
empty store the store is non-empty yet no room at all has
`is_starting_room = true` — "exactly one" fails — even though
`starting_room_id` names the flagless room `"a"`. -/
theorem startingRoom_unique_cex :
    ((WorldMap.empty.add_room "a" "A" "alpha" 3 3 false).1.rooms.length = 1) ∧
    (((WorldMap.empty.add_room "a" "A" "alpha" 3 3 false).1.rooms.filter
        (fun p => p.2.is_starting_room)).length = 0) ∧
    (WorldMap.empty.add_room "a" "A" "alpha" 3 3 false).1.starting_room_id = some "a" :=
  ⟨rfl, rfl, rfl⟩

/-- Stated from the spec's words (§4.5), to be compared with the code's
`move_room_away_from_conflict`: relocate to
`blockingCenter + unitVector * (minSeparation + bufferMargin)` with
`minSeparation = max(sumOfHalfWidths, sumOfHalfHeights)`, `bufferMargin = 1`
world unit, and the unit vector pointing from the blocking room's center to
the placed room's center, defaulting to +x when the centers coincide. -/
noncomputable def specRelocation (moving blocking : Room) : ℝ × ℝ :=
  let sumOfHalfWidths := moving.width / 2 + blocking.width / 2
  let sumOfHalfHeights := moving.height / 2 + blocking.height / 2
  let minSeparation := max sumOfHalfWidths sumOfHalfHeights
  let bufferMargin : ℝ := 1
  let vx := moving.x - blocking.x
  let vy := moving.y - blocking.y
  let norm := Real.sqrt (vx * vx + vy * vy)
  let unit : ℝ × ℝ :=
    if moving.x = blocking.x ∧ moving.y = blocking.y then (1, 0)
    else (vx / norm, vy / norm)
  (blocking.x + unit.1 * (minSeparation + bufferMargin),
   blocking.y + unit.2 * (minSeparation + bufferMargin))

/-- C5: the code's relocation is exactly the spec's formula — the placed room
moves to `blockingCenter + unitVector * (minSeparation + 1)` (unit vector from
the blocking center, `(1,0)` when the centers coincide, `minSeparation` the
max of the summed half-widths and summed half-heights); relocation changes
nothing but the coordinates of the placed room; and whatever room a resolver
pass finds is a genuinely overlapping room other than the one being placed. -/
theorem resolver_relocation_spec :
    (∀ moving blocking : Room,
      ((move_room_away_from_conflict moving blocking).x,
       (move_room_away_from_conflict moving blocking).y) =
        specRelocation moving blocking) ∧
    (∀ moving blocking : Room,
      (move_room_away_from_conflict moving blocking).id = moving.id ∧
      (move_room_away_from_conflict moving blocking).width = moving.width ∧
      (move_room_away_from_conflict moving blocking).height = moving.height ∧
      (move_room_away_from_conflict moving blocking).exits = moving.exits ∧
      (move_room_away_from_conflict moving blocking).is_starting_room =
        moving.is_starting_room ∧
      (move_room_away_from_conflict moving blocking).discovery_order =
        moving.discovery_order) ∧
    (∀ (r : Room) (rooms : List (String × Room)) (b : Room),
      findConflict r rooms = some b → rooms_overlap r b ∧ b.id ≠ r.id) := by
  refine ⟨?_, fun _ _ => ⟨rfl, rfl, rfl, rfl, rfl, rfl⟩, ?_⟩
  · intro moving blocking
    have hdist : Real.sqrt ((moving.x - blocking.x) * (moving.x - blocking.x) +
        (moving.y - blocking.y) * (moving.y - blocking.y)) = 0 ↔
        (moving.x = blocking.x ∧ moving.y = blocking.y) := by
      rw [Real.sqrt_eq_zero']
      constructor
      · intro h
        have h1 : (moving.x - blocking.x) * (moving.x - blocking.x) = 0 := by
          nlinarith [mul_self_nonneg (moving.x - blocking.x),
            mul_self_nonneg (moving.y - blocking.y)]
        have h2 : (moving.y - blocking.y) * (moving.y - blocking.y) = 0 := by
          nlinarith [mul_self_nonneg (moving.x - blocking.x),
            mul_self_nonneg (moving.y - blocking.y)]
        constructor
        · have := mul_self_eq_zero.mp h1
          linarith
        · have := mul_self_eq_zero.mp h2
          linarith
      · rintro ⟨hx, hy⟩
        rw [hx, hy]
        simp
    have hmax : max ((moving.width + blocking.width) / 2 + 1)
        ((moving.height + blocking.height) / 2 + 1) =
        max (moving.width / 2 + blocking.width / 2)
          (moving.height / 2 + blocking.height / 2) + 1 := by
      rw [max_add_add_right, add_div, add_div]
    show (blocking.x + (if Real.sqrt ((moving.x - blocking.x) * (moving.x - blocking.x) + (moving.y - blocking.y) * (moving.y - blocking.y)) = 0 then (1 : ℝ) else (moving.x - blocking.x) / Real.sqrt ((moving.x - blocking.x) * (moving.x - blocking.x) + (moving.y - blocking.y) * (moving.y - blocking.y))) * max ((moving.width + blocking.width) / 2 + 1) ((moving.height + blocking.height) / 2 + 1),
          blocking.y + (if Real.sqrt ((moving.x - blocking.x) * (moving.x - blocking.x) + (moving.y - blocking.y) * (moving.y - blocking.y)) = 0 then (0 : ℝ) else (moving.y - blocking.y) / Real.sqrt ((moving.x - blocking.x) * (moving.x - blocking.x) + (moving.y - blocking.y) * (moving.y - blocking.y))) * max ((moving.width + blocking.width) / 2 + 1) ((moving.height + blocking.height) / 2 + 1)) =
        (blocking.x + (if moving.x = blocking.x ∧ moving.y = blocking.y then ((1 : ℝ), (0 : ℝ)) else ((moving.x - blocking.x) / Real.sqrt ((moving.x - blocking.x) * (moving.x - blocking.x) + (moving.y - blocking.y) * (moving.y - blocking.y)), (moving.y - blocking.y) / Real.sqrt ((moving.x - blocking.x) * (moving.x - blocking.x) + (moving.y - blocking.y) * (moving.y - blocking.y)))).1 * (max (moving.width / 2 + blocking.width / 2) (moving.height / 2 + blocking.height / 2) + 1),
         blocking.y + (if moving.x = blocking.x ∧ moving.y = blocking.y then ((1 : ℝ), (0 : ℝ)) else ((moving.x - blocking.x) / Real.sqrt ((moving.x - blocking.x) * (moving.x - blocking.x) + (moving.y - blocking.y) * (moving.y - blocking.y)), (moving.y - blocking.y) / Real.sqrt ((moving.x - blocking.x) * (moving.x - blocking.x) + (moving.y - blocking.y) * (moving.y - blocking.y)))).2 * (max (moving.width / 2 + blocking.width / 2) (moving.height / 2 + blocking.height / 2) + 1))
    by_cases hc : moving.x = blocking.x ∧ moving.y = blocking.y
    · rw [if_pos (hdist.mpr hc), if_pos (hdist.mpr hc), if_pos hc, hmax]
    · rw [if_neg (fun h => hc (hdist.mp h)), if_neg (fun h => hc (hdist.mp h)),
        if_neg hc, hmax]
  · intro r rooms b
    induction rooms with
    | nil => intro h; cases h
    | cons p rest ih =>
        obtain ⟨k, er⟩ := p
        intro h
        simp only [findConflict] at h
        by_cases hid : er.id = r.id
        · rw [if_pos hid] at h
          exact ih h
        · rw [if_neg hid] at h
          by_cases hov : rooms_overlap r er
          · rw [if_pos hov] at h
            have hb : er = b := Option.some_injective _ h
            subst hb
            exact ⟨hov, hid⟩
          · rw [if_neg hov] at h
            exact ih h

/-- Witness for the C5 theorem at concrete rooms: two coincident 2×2 rooms
overlap, the scan reports the blocking room, and the relocation formulas
agree there. -/
theorem resolver_relocation_spec_witness :
    ((move_room_away_from_conflict roomCA roomCB).x,
     (move_room_away_from_conflict roomCA roomCB).y) = specRelocation roomCA roomCB ∧
    rooms_overlap roomCA roomCB ∧ roomCB.id ≠ roomCA.id := by
  obtain ⟨h1, -, h3⟩ := resolver_relocation_spec
  have hov : rooms_overlap roomCA roomCB := by
    intro h
    rcases h with h | h | h | h <;> norm_num [roomCA, roomCB] at h
  have hfc : findConflict roomCA [("b", roomCB)] = some roomCB := by
    show (if roomCB.id = roomCA.id then findConflict roomCA [] else if rooms_overlap roomCA roomCB then some roomCB else findConflict roomCA []) = some roomCB
    rw [if_neg (by decide : ¬ (roomCB.id = roomCA.id)), if_pos hov]
  exact ⟨h1 roomCA roomCB, h3 roomCA [("b", roomCB)] roomCB hfc⟩

/-! Decoder plumbing lemmas. -/

theorem except_bind_ok {α β : Type} (a : α) (f : α → Except String β) :
    (Except.ok a >>= f) = f a := rfl

theorem except_bind_error {α β : Type} (e : String) (f : α → Except String β) :
    ((Except.error e : Except String α) >>= f) = Except.error e := rfl

theorem req_some {α : Type} (v : α) : req (some v) = Except.ok v := rfl

theorem req_none {α : Type} :
    (req none : Except String α) = Except.error "MalformedRecord" := rfl

theorem foldlM_error_of_mem {α β : Type} (step : β → α → Except String β)
    (l : List α) (x : α) (hx : x ∈ l)
    (hfail : ∀ acc, ∃ e, step acc x = Except.error e) :
    ∀ acc, ∃ e, l.foldlM step acc = Except.error e := by
  induction l with
  | nil => cases hx
  | cons y rest ih =>
      intro acc
      rw [List.foldlM_cons]
      rcases List.mem_cons.mp hx with rfl | hx'
      · obtain ⟨e, he⟩ := hfail acc
        exact ⟨e, by rw [he, except_bind_error]⟩
      · rcases hy : step acc y with e | acc'
        · exact ⟨e, by rw [except_bind_error]⟩
        · obtain ⟨e, he⟩ := ih hx' acc'
          exact ⟨e, by rw [except_bind_ok, he]⟩

/-- The room-record fields `decodeRoom` requires. -/
def requiredRoomFields : List String :=
  ["id", "name", "description", "width", "height", "x", "y"]

theorem decodeRoom_error_of_missing (j : JValue) (f : String)
    (hf : f ∈ requiredRoomFields) (hnone : j.getField f = none) :
    ∃ e, decodeRoom j = Except.error e := by
  have hf' : f = "id" ∨ f = "name" ∨ f = "description" ∨ f = "width" ∨
      f = "height" ∨ f = "x" ∨ f = "y" := by
    simpa [requiredRoomFields] using hf
  simp only [decodeRoom]
  rcases h1 : getStr (j.getField "id") with _ | v1
  · exact ⟨_, rfl⟩
  rcases h2 : getStr (j.getField "name") with _ | v2
  · exact ⟨_, rfl⟩
  rcases h3 : getStr (j.getField "description") with _ | v3
  · exact ⟨_, rfl⟩
  rcases h4 : getReal (j.getField "width") with _ | v4
  · exact ⟨_, rfl⟩
  rcases h5 : getReal (j.getField "height") with _ | v5
  · exact ⟨_, rfl⟩
  rcases h6 : getReal (j.getField "x") with _ | v6
  · exact ⟨_, rfl⟩
  rcases h7 : getReal (j.getField "y") with _ | v7
  · exact ⟨_, rfl⟩
  rcases hf' with rfl | rfl | rfl | rfl | rfl | rfl | rfl
  · rw [hnone] at h1; exact Option.noConfusion h1
  · rw [hnone] at h2; exact Option.noConfusion h2
  · rw [hnone] at h3; exact Option.noConfusion h3
  · rw [hnone] at h4; exact Option.noConfusion h4
  · rw [hnone] at h5; exact Option.noConfusion h5
  · rw [hnone] at h6; exact Option.noConfusion h6
  · rw [hnone] at h7; exact Option.noConfusion h7

theorem attachExits_error (acc : WorldMap) (rid : String) (rdata : JValue)
    (exits : List (String × JValue)) (hex : rdata.getField "exits" = some (.obj exits))
    (ex : String × JValue) (hmem : ex ∈ exits)
    (hbad : Direction.fromString ex.1 = none ∨
      ∃ ds, getStr (ex.2.getField "direction") = some ds ∧
        Direction.fromString ds = none) :
    ∃ e, attachExits acc rid rdata = Except.error e := by
  have hobj : getObjOrEmpty rdata "exits" = Except.ok exits := by
    simp [getObjOrEmpty, hex]
  have hstep : ∀ (r : Room), ∃ e, exitStep r ex = Except.error e := by
    intro r
    rcases hbad with hkey | ⟨ds, hds, hbadds⟩
    · exact ⟨"MalformedRecord", by
        simp only [exitStep, hkey, req_none, except_bind_error]⟩
    · have hde : decodeRoomExit ex.2 = Except.error "MalformedRecord" := by
        simp only [decodeRoomExit, hds, req_some, except_bind_ok, hbadds, req_none,
          except_bind_error]
      rcases hkey2 : Direction.fromString ex.1 with _ | dkey
      · exact ⟨"MalformedRecord", by
          simp only [exitStep, hkey2, req_none, except_bind_error]⟩
      · exact ⟨"MalformedRecord", by
          simp only [exitStep, hkey2, req_some, except_bind_ok, hde, except_bind_error]⟩
  rcases hroom : dictGet rid acc.rooms with _ | room
  · exact ⟨"MalformedRecord", by
      simp only [attachExits, hroom, req_none, except_bind_error]⟩
  · obtain ⟨e, he⟩ := foldlM_error_of_mem exitStep exits ex hmem hstep room
    exact ⟨e, by
      simp only [attachExits, hroom, req_some, except_bind_ok, hobj, he,
        except_bind_error]⟩

/-- First decode pass as a standalone function (for stating `from_dict_eq`). -/
def pass1Step : WorldMap → String × JValue → Except String WorldMap :=
  fun acc entry => do
    let room ← decodeRoom entry.2
    pure { acc with rooms := dictInsert entry.1 room acc.rooms }

/-- Second decode pass as a standalone function. -/
def pass2Step : WorldMap → String × JValue → Except String WorldMap :=
  fun acc entry => attachExits acc entry.1 entry.2

/-- The store the decoder seeds pass 1 with. -/
def fromDictInit (data : JValue) : WorldMap :=
  { rooms := [],
    discovery_count := match data.getField "discovery_count" with
      | some (.nat n) => n
      | _ => 0,
    starting_room_id := getStr (data.getField "starting_room_id") }

theorem from_dict_eq (data : JValue) (rooms : List (String × JValue))
    (hrooms : data.getField "rooms" = some (.obj rooms)) :
    WorldMap.from_dict data =
      (rooms.foldlM pass1Step (fromDictInit data) >>=
        fun m1 => rooms.foldlM pass2Step m1) := by
  simp only [WorldMap.from_dict, pass1Step, pass2Step, fromDictInit,
    show getObjOrEmpty data "rooms" = Except.ok rooms from by
      simp [getObjOrEmpty, hrooms],
    except_bind_ok]
  rfl

/-- C8: decoding fails — no store is returned — whenever some stored room
record is missing one of the required fields (`id, name, description, width,
height, x, y` raise `KeyError`), or some stored exit is keyed by, or carries
in its `direction` field, a token outside the ten known direction tokens
(`Direction(...)` raises `ValueError`). -/
theorem fromDict_malformed (data : JValue) (rooms : List (String × JValue))
    (hrooms : data.getField "rooms" = some (.obj rooms))
    (rid : String) (rdata : JValue) (hmem : (rid, rdata) ∈ rooms) :
    ((∃ f ∈ requiredRoomFields, rdata.getField f = none) →
      ∃ e, WorldMap.from_dict data = Except.error e) ∧
    (∀ exits, rdata.getField "exits" = some (.obj exits) →
      ∀ ex ∈ exits,
        (Direction.fromString ex.1 = none ∨
          ∃ ds, getStr (ex.2.getField "direction") = some ds ∧
            Direction.fromString ds = none) →
        ∃ e, WorldMap.from_dict data = Except.error e) := by
  rw [from_dict_eq data rooms hrooms]
  constructor
  · rintro ⟨f, hf, hnone⟩
    have hstep : ∀ acc, ∃ e, pass1Step acc (rid, rdata) = Except.error e := by
      intro acc
      obtain ⟨e, he⟩ := decodeRoom_error_of_missing rdata f hf hnone
      exact ⟨e, by simp only [pass1Step, he, except_bind_error]⟩
    obtain ⟨e, he⟩ := foldlM_error_of_mem pass1Step rooms (rid, rdata) hmem hstep
      (fromDictInit data)
    exact ⟨e, by rw [he, except_bind_error]⟩
  · rintro exits hex ex hmemex hbad
    rcases hp1 : rooms.foldlM pass1Step (fromDictInit data) with e1 | m1
    · exact ⟨e1, by rw [except_bind_error]⟩
    · have hstep : ∀ acc, ∃ e, pass2Step acc (rid, rdata) = Except.error e := by
        intro acc
        obtain ⟨e, he⟩ := attachExits_error acc rid rdata exits hex ex hmemex hbad
        exact ⟨e, by simp only [pass2Step, he]⟩
      obtain ⟨e, he⟩ := foldlM_error_of_mem pass2Step rooms (rid, rdata) hmem hstep m1
      exact ⟨e, by rw [except_bind_ok, he]⟩

/-- Witness for the C8 theorem: a record whose one room lacks every required
field (and one with an exit keyed by a bogus token) fail to decode. -/
theorem fromDict_malformed_witness :
    (∃ e, WorldMap.from_dict
      (JValue.obj [("rooms", JValue.obj [("r", JValue.obj [])])]) =
      Except.error e) ∧
    (∃ e, WorldMap.from_dict
      (JValue.obj [("rooms", JValue.obj [("r", JValue.obj [("id", JValue.str "r"), ("name", JValue.str "R"), ("description", JValue.str "d"), ("width", JValue.real 1), ("height", JValue.real 1), ("x", JValue.real 0), ("y", JValue.real 0), ("exits", JValue.obj [("sideways", JValue.obj [])])])])]) =
      Except.error e) := by
  constructor
  · obtain ⟨h1, -⟩ := fromDict_malformed
      (JValue.obj [("rooms", JValue.obj [("r", JValue.obj [])])])
      [("r", JValue.obj [])] rfl "r" (JValue.obj [])
      (List.mem_singleton.mpr rfl)
    exact h1 ⟨"id", by simp [requiredRoomFields], rfl⟩
  · obtain ⟨-, h2⟩ := fromDict_malformed
      (JValue.obj [("rooms", JValue.obj [("r", JValue.obj [("id", JValue.str "r"), ("name", JValue.str "R"), ("description", JValue.str "d"), ("width", JValue.real 1), ("height", JValue.real 1), ("x", JValue.real 0), ("y", JValue.real 0), ("exits", JValue.obj [("sideways", JValue.obj [])])])])])
      [("r", JValue.obj [("id", JValue.str "r"), ("name", JValue.str "R"), ("description", JValue.str "d"), ("width", JValue.real 1), ("height", JValue.real 1), ("x", JValue.real 0), ("y", JValue.real 0), ("exits", JValue.obj [("sideways", JValue.obj [])])])]
      rfl "r"
      (JValue.obj [("id", JValue.str "r"), ("name", JValue.str "R"), ("description", JValue.str "d"), ("width", JValue.real 1), ("height", JValue.real 1), ("x", JValue.real 0), ("y", JValue.real 0), ("exits", JValue.obj [("sideways", JValue.obj [])])])
      (List.mem_singleton.mpr rfl)
    exact h2 [("sideways", JValue.obj [])] rfl ("sideways", JValue.obj [])
      (List.mem_singleton.mpr rfl) (Or.inl rfl)

/-! Round-trip lemmas for the persistence codec. -/

/-- A room as pass 1 instantiates it: geometry and flags, no exits yet. -/
def stripExits (r : Room) : Room := { r with exits := [] }

theorem getStr_optStr (t : Option String) : getStr (some (optStr t)) = t := by
  cases t <;> rfl

theorem dictGet_append {α β : Type} [DecidableEq α] (k : α)
    (l1 l2 : List (α × β)) :
    dictGet k (l1 ++ l2) =
      match dictGet k l1 with
      | some v => some v
      | none => dictGet k l2 := by
  induction l1 with
  | nil => simp [dictGet]
  | cons p rest ih =>
      obtain ⟨k', v'⟩ := p
      by_cases h : k' = k <;> simp [dictGet, h, ih]

theorem dictUpdate_append {α β : Type} [DecidableEq α] (k : α) (f : β → β)
    (front rest : List (α × β)) (v : β) (h : dictGet k front = none) :
    dictUpdate k f (front ++ (k, v) :: rest) = front ++ (k, f v) :: rest := by
  induction front with
  | nil => simp [dictUpdate]
  | cons p front' ih =>
      obtain ⟨k', v'⟩ := p
      by_cases hk : k' = k
      · rw [hk] at h
        simp [dictGet] at h
      · simp only [dictGet, hk, if_false] at h
        simp [dictUpdate, hk, ih h]

theorem decodeRoom_toJ (r : Room) :
    decodeRoom (Room.to_dict r) = Except.ok (stripExits r) := rfl

theorem decodeRoomExit_toJ (e : RoomExit) :
    decodeRoomExit (RoomExit.to_dict e) = Except.ok e := by
  obtain ⟨d, t, b⟩ := e
  cases d <;> cases t <;> rfl

theorem exitStep_toJ (r : Room) (d : Direction) (e : RoomExit) :
    exitStep r (d.value, e.to_dict) =
      Except.ok { r with exits := dictInsert d e r.exits } := by
  simp only [exitStep, Direction.fromString_value, req_some, except_bind_ok,
    decodeRoomExit_toJ]
  rfl

theorem exits_fold_rebuild (l : List (Direction × RoomExit)) (r : Room)
    (hfresh : ∀ d ∈ l.map Prod.fst, dictGet d r.exits = none)
    (hnodup : (l.map Prod.fst).Nodup) :
    (l.map (fun p => (p.1.value, p.2.to_dict))).foldlM exitStep r =
      Except.ok { r with exits := r.exits ++ l } := by
  induction l generalizing r with
  | nil =>
      simp only [List.map_nil, List.foldlM_nil, List.append_nil]
      rfl
  | cons p rest ih =>
      obtain ⟨d, e⟩ := p
      rw [List.map_cons] at hfresh hnodup
      obtain ⟨hdnotin, hnodup'⟩ := List.nodup_cons.mp hnodup
      simp only [List.map_cons, List.foldlM_cons, exitStep_toJ, except_bind_ok]
      have hins : dictInsert d e r.exits = r.exits ++ [(d, e)] :=
        dictInsert_of_not_mem d e r.exits (hfresh d (List.mem_cons_self d _))
      rw [hins]
      have hfresh' : ∀ d' ∈ rest.map Prod.fst,
          dictGet d' (r.exits ++ [(d, e)]) = none := by
        intro d' hd'
        rw [dictGet_append, hfresh d' (List.mem_cons_of_mem d hd')]
        have hdd : d ≠ d' := by
          intro he
          subst he
          exact hdnotin hd'
        simp [dictGet, hdd]
      have hstep := ih { r with exits := r.exits ++ [(d, e)] } hfresh' hnodup'
      rw [hstep, List.append_assoc]
      rfl

theorem pass1Step_toJ (acc : WorldMap) (k : String) (room : Room) :
    pass1Step acc (k, Room.to_dict room) =
      Except.ok { acc with rooms := dictInsert k (stripExits room) acc.rooms } := by
  simp only [pass1Step, decodeRoom_toJ, except_bind_ok]
  rfl

theorem pass1_fold (rs : List (String × Room)) (acc : WorldMap)
    (hfresh : ∀ k ∈ rs.map Prod.fst, dictGet k acc.rooms = none)
    (hnodup : (rs.map Prod.fst).Nodup) :
    (rs.map (fun p => (p.1, p.2.to_dict))).foldlM pass1Step acc =
      Except.ok { acc with
        rooms := acc.rooms ++ rs.map (fun p => (p.1, stripExits p.2)) } := by
  induction rs generalizing acc with
  | nil =>
      simp only [List.map_nil, List.foldlM_nil, List.append_nil]
      rfl
  | cons p rest ih =>
      obtain ⟨k, room⟩ := p
      rw [List.map_cons] at hfresh hnodup
      obtain ⟨hknotin, hnodup'⟩ := List.nodup_cons.mp hnodup
      simp only [List.map_cons, List.foldlM_cons, pass1Step_toJ, except_bind_ok]
      have hins : dictInsert k (stripExits room) acc.rooms =
          acc.rooms ++ [(k, stripExits room)] :=
        dictInsert_of_not_mem _ _ _ (hfresh k (List.mem_cons_self k _))
      rw [hins]
      have hfresh' : ∀ k' ∈ rest.map Prod.fst,
          dictGet k' (acc.rooms ++ [(k, stripExits room)]) = none := by
        intro k' hk'
        rw [dictGet_append, hfresh k' (List.mem_cons_of_mem k hk')]
        have hkk : k ≠ k' := by
          intro he
          subst he
          exact hknotin hk'
        simp [dictGet, hkk]
      have hstep := ih { acc with rooms := acc.rooms ++ [(k, stripExits room)] }
        hfresh' hnodup'
      rw [hstep, List.append_assoc]
      rfl

theorem pass2_fold (rs : List (String × Room)) (front : List (String × Room))
    (acc : WorldMap)
    (hacc : acc.rooms = front ++ rs.map (fun p => (p.1, stripExits p.2)))
    (hdisj : ∀ k ∈ rs.map Prod.fst, dictGet k front = none)
    (hnodup : (rs.map Prod.fst).Nodup)
    (hexits : ∀ p ∈ rs, ((p.2.exits.map Prod.fst).Nodup)) :
    (rs.map (fun p => (p.1, p.2.to_dict))).foldlM pass2Step acc =
      Except.ok { acc with rooms := front ++ rs } := by
  induction rs generalizing front acc with
  | nil =>
      simp only [List.map_nil, List.foldlM_nil, List.append_nil]
      simp only [List.map_nil, List.append_nil] at hacc
      obtain ⟨rms, dc, sid⟩ := acc
      have hacc' : rms = front := hacc
      subst hacc'
      rfl
  | cons p rest ih =>
      obtain ⟨k, room⟩ := p
      rw [List.map_cons] at hdisj hnodup
      obtain ⟨hknotin, hnodup'⟩ := List.nodup_cons.mp hnodup
      rw [List.map_cons] at hacc
      have hget : dictGet k acc.rooms = some (stripExits room) := by
        rw [hacc, dictGet_append, hdisj k (List.mem_cons_self k _)]
        simp [dictGet]
      have hrebuild := exits_fold_rebuild room.exits (stripExits room)
        (fun d _ => rfl) (hexits (k, room) (List.mem_cons_self _ _))
      have hattach : attachExits acc k (Room.to_dict room) =
          Except.ok { acc with rooms := dictUpdate k (fun _ => room) acc.rooms } := by
        simp only [attachExits, hget, req_some, except_bind_ok,
          show getObjOrEmpty (Room.to_dict room) "exits" = Except.ok (room.exits.map (fun p => (p.1.value, p.2.to_dict))) from rfl,
          hrebuild]
        rfl
      have hupd : dictUpdate k (fun _ => room) acc.rooms =
          front ++ (k, room) :: rest.map (fun p => (p.1, stripExits p.2)) := by
        rw [hacc]
        exact dictUpdate_append k _ front _ _ (hdisj k (List.mem_cons_self k _))
      simp only [List.map_cons, List.foldlM_cons,
        show pass2Step acc (k, Room.to_dict room) = Except.ok { acc with rooms := front ++ (k, room) :: rest.map (fun p => (p.1, stripExits p.2)) } from by rw [show pass2Step acc (k, Room.to_dict room) = attachExits acc k (Room.to_dict room) from rfl, hattach, hupd],
        except_bind_ok]
      have hdisj' : ∀ k' ∈ rest.map Prod.fst,
          dictGet k' (front ++ [(k, room)]) = none := by
        intro k' hk'
        rw [dictGet_append, hdisj k' (List.mem_cons_of_mem k hk')]
        have hkk : k ≠ k' := by
          intro he
          subst he
          exact hknotin hk'
        simp [dictGet, hkk]
      have hstep := ih (front ++ [(k, room)])
        { acc with rooms := front ++ (k, room) :: rest.map (fun p => (p.1, stripExits p.2)) }
        (by rw [List.append_assoc]; rfl) hdisj' hnodup'
        (fun p hp => hexits p (List.mem_cons_of_mem _ hp))
      rw [hstep, List.append_assoc]
      rfl

/-- A store a Python `WorldMap` can actually hold: the rooms dict and each
room's exits dict have no duplicate keys. -/
def WorldMap.valid (m : WorldMap) : Prop :=
  (m.rooms.map Prod.fst).Nodup ∧ ∀ p ∈ m.rooms, (p.2.exits.map Prod.fst).Nodup

/-- C1: decoding the encoding of any valid store yields a store deeply
structurally equal to the original — `from_dict (to_dict M) = ok M`, keeping
`discovery_count`, `starting_room_id`, and for every room every field
including its full exit map (discovered and undiscovered exits alike). -/
theorem fromDict_toDict_roundtrip (m : WorldMap) (hv : m.valid) :
    WorldMap.from_dict m.to_dict = Except.ok m := by
  have hinit : fromDictInit m.to_dict = { rooms := [], discovery_count := m.discovery_count, starting_room_id := m.starting_room_id } := by
    show ({ rooms := [], discovery_count := m.discovery_count, starting_room_id := getStr (some (optStr m.starting_room_id)) } : WorldMap) = _
    rw [getStr_optStr]
  have hrooms : m.to_dict.getField "rooms" = some (JValue.obj (m.rooms.map (fun p : String × Room => (p.1, p.2.to_dict)))) := rfl
  rw [from_dict_eq m.to_dict (m.rooms.map (fun p : String × Room => (p.1, p.2.to_dict))) hrooms, hinit]
  rw [pass1_fold m.rooms { rooms := [], discovery_count := m.discovery_count, starting_room_id := m.starting_room_id } (fun k _ => rfl) hv.1, except_bind_ok]
  refine (pass2_fold m.rooms [] _ rfl (fun k _ => rfl) hv.1 hv.2).trans ?_
  rfl

/-- A room with one discovered and one undiscovered exit. -/
def roomW : Room :=
  { id := "w", name := "W", description := "west wing", width := 4, height := 4,
    x := 1, y := 2,
    exits := [(Direction.north, ⟨Direction.north, some "v", true⟩), (Direction.east, ⟨Direction.east, none, false⟩)],
    is_starting_room := true, discovery_order := 1 }

/-- A second room with a discovered exit back. -/
def roomV : Room :=
  { id := "v", name := "V", description := "vault", width := 3, height := 5,
    x := 1, y := 6,
    exits := [(Direction.south, ⟨Direction.south, some "w", true⟩)],
    is_starting_room := false, discovery_order := 2 }

/-- A concrete valid store mixing discovered and undiscovered exits. -/
def wvMap : WorldMap :=
  { rooms := [("w", roomW), ("v", roomV)], discovery_count := 2,
    starting_room_id := some "w" }

/-- Witness for the C1 theorem at a concrete store. -/
theorem fromDict_toDict_roundtrip_witness :
    WorldMap.from_dict wvMap.to_dict = Except.ok wvMap :=
  fromDict_toDict_roundtrip wvMap ⟨by decide, by decide⟩
